import Mathlib

/-!
# Lit & Laid reading hub: wishlist persistence and scoping

A shallow embedding of the storage-facing part of `src/script.js`
(`currentUser`, `setUser`, `wlKey`, `getWishlist`, `setWishlist`,
`addToWishlist`, `removeFromWishlist`, `updateAssignee`) together with the
platform primitives those functions call (`localStorage`, `JSON.parse`,
`JSON.stringify`), and of the catalog helpers `urlFromDomain`, `typeFromLabel`
and `poetryData`.

Modelling conventions.

* A JavaScript string is a Lean `String`, i.e. a sequence of Unicode scalar
  values.  Strings holding a lone UTF-16 surrogate have no counterpart here;
  the only place where one could arise, a `\uXXXX` escape naming a lone
  surrogate, is rejected by the parser model.
* `localStorage` is a total map from keys to optional strings; quota errors are
  not modelled.
* A JSON number is kept as the decimal literal it was read from; rounding to a
  double is not modelled.  No wishlist entry contains a number.
* `renderAuth`, `renderWishlist` and `alert` only read the storage and write to
  the page, so they do not appear in the storage transformers below.
* `toLowerCase` and the `i` flag of the two regular expressions act on ASCII
  letters; `trim` strips the white space and line terminators of ECMAScript.
* `Date.now()` is a natural number of milliseconds and `Math.random()` is
  represented by its base-36 rendering `Math.random().toString(36)`; both are
  explicit inputs of `addToWishlist`.
-/

namespace LitLaid

set_option maxRecDepth 100000

/-! ## JavaScript values -/

/-- The values `JSON.parse` can produce. Object properties are kept in
enumeration order. -/
inductive JSValue where
  | null
  | bool (b : Bool)
  | num (lit : String)
  | str (s : String)
  | arr (xs : List JSValue)
  | obj (props : List (String × JSValue))

/-- The exceptions raised by the modelled code. -/
inductive JSError where
  | syntaxError
  | typeError
  deriving DecidableEq, Repr

/-- Truthiness-based default on a string that may be `null`/`undefined`:
`x || d`. -/
def orStr (x : Option String) (d : String) : String :=
  match x with
  | some s => if s = "" then d else s
  | none => d

/-! ## Object property tables -/

/-- Value of a run of decimal digits. -/
def digitsVal : List Char → Nat → Option Nat
  | [], acc => some acc
  | c :: cs, acc =>
    if '0' ≤ c ∧ c ≤ '9' then digitsVal cs (acc * 10 + (c.toNat - 48)) else none

/-- An array index in the sense of ECMAScript: a canonical decimal numeral
below `2^32 - 1`. Such keys are enumerated first, in ascending order. -/
def arrayIndex (k : String) : Option Nat :=
  match k.data with
  | [] => none
  | c :: cs =>
    if c = '0' ∧ cs ≠ [] then none
    else
      match digitsVal (c :: cs) 0 with
      | some n => if n < 4294967295 then some n else none
      | none => none

/-- Insert a fresh integer-indexed property at its place among the leading
integer-indexed ones. -/
def insertIndexed (n : Nat) (k : String) (v : JSValue) :
    List (String × JSValue) → List (String × JSValue)
  | [] => [(k, v)]
  | p :: ps =>
    match arrayIndex p.1 with
    | some m => if m < n then p :: insertIndexed n k v ps else (k, v) :: p :: ps
    | none => (k, v) :: p :: ps

/-- Replace the value of an existing property, keeping its position. -/
def replaceProp (k : String) (v : JSValue) :
    List (String × JSValue) → List (String × JSValue)
  | [] => []
  | p :: ps => if p.1 = k then (k, v) :: ps else p :: replaceProp k v ps

/-- Own-property lookup. -/
def lookupProp (k : String) : List (String × JSValue) → Option JSValue
  | [] => none
  | p :: ps => if p.1 = k then some p.2 else lookupProp k ps

/-- Define or overwrite a data property: an existing key keeps its position,
a new integer-like key joins the leading block, any other new key goes last. -/
def setProp (ps : List (String × JSValue)) (k : String) (v : JSValue) :
    List (String × JSValue) :=
  match lookupProp k ps with
  | some _ => replaceProp k v ps
  | none =>
    match arrayIndex k with
    | some n => insertIndexed n k v ps
    | none => ps ++ [(k, v)]

/-! ## JSON.stringify -/

namespace JSON

/-- Lower-case hexadecimal digit. -/
def hexDigit (n : Nat) : Char :=
  if n < 10 then Char.ofNat (48 + n) else Char.ofNat (87 + n)

/-- Escape of one character inside a JSON string literal, as
`JSON.stringify` writes it. -/
def escapeChar (c : Char) : List Char :=
  if c = '"' then ['\\', '"']
  else if c = '\\' then ['\\', '\\']
  else if c = Char.ofNat 8 then ['\\', 'b']
  else if c = Char.ofNat 12 then ['\\', 'f']
  else if c = '\n' then ['\\', 'n']
  else if c = '\r' then ['\\', 'r']
  else if c = '\t' then ['\\', 't']
  else if c.toNat < 32 then
    ['\\', 'u', '0', '0', hexDigit (c.toNat / 16), hexDigit (c.toNat % 16)]
  else [c]

/-- Escaped body of a string literal. -/
def escape : List Char → List Char
  | [] => []
  | c :: cs => escapeChar c ++ escape cs

/-- A quoted string literal. -/
def quote (s : String) : List Char :=
  '"' :: (escape s.data ++ ['"'])

mutual
/-- Text of a value. -/
def render : JSValue → List Char
  | .null => ['n', 'u', 'l', 'l']
  | .bool b => if b then ['t', 'r', 'u', 'e'] else ['f', 'a', 'l', 's', 'e']
  | .num l => l.data
  | .str s => quote s
  | .arr xs => '[' :: (renderElems xs ++ [']'])
  | .obj ps => Char.ofNat 123 :: (renderProps ps ++ [Char.ofNat 125])
/-- Comma-separated elements of an array. -/
def renderElems : List JSValue → List Char
  | [] => []
  | [v] => render v
  | v :: w :: vs => render v ++ ',' :: renderElems (w :: vs)
/-- Comma-separated members of an object. -/
def renderProps : List (String × JSValue) → List Char
  | [] => []
  | [(k, v)] => quote k ++ ':' :: render v
  | (k, v) :: p :: ps => quote k ++ ':' :: render v ++ ',' :: renderProps (p :: ps)
end

/-- The text `JSON.stringify` returns for a value: no insignificant white
space, properties in enumeration order. -/
def stringify (v : JSValue) : String := String.mk (render v)

/-! ## JSON.parse -/

/-- JSON white space. -/
def isWs (c : Char) : Bool :=
  c = ' ' || c = '\t' || c = '\n' || c = '\r'

/-- Drop leading white space. -/
def skipWs : List Char → List Char
  | [] => []
  | c :: cs => if isWs c then skipWs cs else c :: cs

/-- Consume a fixed run of characters. -/
def expect : List Char → List Char → Option (List Char)
  | [], cs => some cs
  | _ :: _, [] => none
  | a :: p, c :: cs => if a = c then expect p cs else none

/-- Value of a hexadecimal digit. -/
def hexVal (c : Char) : Option Nat :=
  if '0' ≤ c ∧ c ≤ '9' then some (c.toNat - 48)
  else if 'a' ≤ c ∧ c ≤ 'f' then some (c.toNat - 87)
  else if 'A' ≤ c ∧ c ≤ 'F' then some (c.toNat - 55)
  else none

/-- Value of four hexadecimal digits. -/
def hex4 (a b c d : Char) : Option Nat :=
  match hexVal a, hexVal b, hexVal c, hexVal d with
  | some x, some y, some z, some w => some (((x * 16 + y) * 16 + z) * 16 + w)
  | _, _, _, _ => none

/-- The character named by a single-letter escape. -/
def unescape (c : Char) : Option Char :=
  if c = '"' then some '"'
  else if c = '\\' then some '\\'
  else if c = '/' then some '/'
  else if c = 'b' then some (Char.ofNat 8)
  else if c = 'f' then some (Char.ofNat 12)
  else if c = 'n' then some '\n'
  else if c = 'r' then some '\r'
  else if c = 't' then some '\t'
  else none

/-- The character denoted by a `\\uXXXX` escape, read after the `u`. A high
surrogate must be followed by an escaped low surrogate and the two denote one
character. -/
def readUnicode (cs : List Char) : Option (Char × List Char) :=
  match cs with
  | h1 :: h2 :: h3 :: h4 :: rest =>
    match hex4 h1 h2 h3 h4 with
    | none => none
    | some n =>
      if n < 55296 ∨ 57344 ≤ n then some (Char.ofNat n, rest)
      else if n < 56320 then
        match rest with
        | b :: u :: l1 :: l2 :: l3 :: l4 :: rest2 =>
          if b = '\\' ∧ u = 'u' then
            match hex4 l1 l2 l3 l4 with
            | none => none
            | some m =>
              if 56320 ≤ m ∧ m < 57344 then
                some (Char.ofNat (65536 + (n - 55296) * 1024 + (m - 56320)), rest2)
              else none
          else none
        | _ => none
      else none
  | _ => none

/-- The character denoted by an escape sequence, read after the backslash. -/
def readEscape (cs : List Char) : Option (Char × List Char) :=
  match cs with
  | [] => none
  | e :: rest =>
    if e = 'u' then readUnicode rest
    else (unescape e).map (fun ch => (ch, rest))

/-- Body of a string literal, read after the opening quote up to and
including the closing quote. Returns the decoded characters and the rest of
the input. The first argument bounds the number of steps; the length of the
input always suffices. -/
def parseChars : Nat → List Char → Option (List Char × List Char)
  | 0, _ => none
  | fuel + 1, cs =>
    match cs with
    | [] => none
    | c :: rest =>
      if c = '"' then some ([], rest)
      else if c = '\\' then
        match readEscape rest with
        | none => none
        | some (ch, rest2) => (parseChars fuel rest2).map (fun p => (ch :: p.1, p.2))
      else if c.toNat < 32 then none
      else (parseChars fuel rest).map (fun p => (c :: p.1, p.2))

/-- Longest leading run of decimal digits. -/
def takeDigits : List Char → List Char × List Char
  | [] => ([], [])
  | c :: cs =>
    if '0' ≤ c ∧ c ≤ '9' then ((takeDigits cs).1.cons c, (takeDigits cs).2) else ([], c :: cs)

/-- Optional fraction part of a number. -/
def parseFrac (cs : List Char) : Option (List Char × List Char) :=
  match cs with
  | c :: r =>
    if c = '.' then
      match takeDigits r with
      | ([], _) => none
      | (ds, r2) => some (c :: ds, r2)
    else some ([], cs)
  | [] => some ([], [])

/-- Optional exponent part of a number. -/
def parseExp (cs : List Char) : Option (List Char × List Char) :=
  match cs with
  | c :: r =>
    if c = 'e' ∨ c = 'E' then
      match r with
      | s :: r1 =>
        if s = '+' ∨ s = '-' then
          match takeDigits r1 with
          | ([], _) => none
          | (ds, r2) => some (c :: s :: ds, r2)
        else
          match takeDigits r with
          | ([], _) => none
          | (ds, r2) => some (c :: ds, r2)
      | [] => none
    else some ([], cs)
  | [] => some ([], [])

/-- Integer part of a number: a single zero, or a non-zero digit followed by
digits. -/
def parseInt (cs : List Char) : Option (List Char × List Char) :=
  match cs with
  | c :: r =>
    if c = '0' then some ([c], r)
    else if '1' ≤ c ∧ c ≤ '9' then some (c :: (takeDigits r).1, (takeDigits r).2)
    else none
  | [] => none

/-- A number literal. -/
def parseNumber (cs : List Char) : Option (JSValue × List Char) :=
  let signed : List Char × List Char :=
    match cs with
    | c :: r => if c = '-' then ([c], r) else ([], cs)
    | [] => ([], [])
  match parseInt signed.2 with
  | none => none
  | some (i, r1) =>
    match parseFrac r1 with
    | none => none
    | some (f, r2) =>
      match parseExp r2 with
      | none => none
      | some (e, r3) => some (.num (String.mk (signed.1 ++ i ++ f ++ e)), r3)

mutual
/-- One JSON value, leading white space included. The first argument bounds
the number of nested calls. -/
def parseValue : Nat → List Char → Option (JSValue × List Char)
  | 0, _ => none
  | fuel + 1, cs =>
    match skipWs cs with
    | [] => none
    | c :: rest =>
      if c = 'n' then (expect ['u', 'l', 'l'] rest).map (fun r => (JSValue.null, r))
      else if c = 't' then (expect ['r', 'u', 'e'] rest).map (fun r => (JSValue.bool true, r))
      else if c = 'f' then
        (expect ['a', 'l', 's', 'e'] rest).map (fun r => (JSValue.bool false, r))
      else if c = '"' then
        match parseChars rest.length rest with
        | some (s, r) => some (JSValue.str (String.mk s), r)
        | none => none
      else if c = '[' then
        match skipWs rest with
        | [] => none
        | d :: r =>
          if d = ']' then some (JSValue.arr [], r)
          else
            match parseElems fuel (d :: r) with
            | some (xs, r2) => some (JSValue.arr xs, r2)
            | none => none
      else if c = Char.ofNat 123 then
        match skipWs rest with
        | [] => none
        | d :: r =>
          if d = Char.ofNat 125 then some (JSValue.obj [], r)
          else
            match parseMembers fuel [] (d :: r) with
            | some (ps, r2) => some (JSValue.obj ps, r2)
            | none => none
      else parseNumber (c :: rest)
/-- Elements of a non-empty array up to and including the closing bracket. -/
def parseElems : Nat → List Char → Option (List JSValue × List Char)
  | 0, _ => none
  | fuel + 1, cs =>
    match parseValue fuel cs with
    | none => none
    | some (v, r) =>
      match skipWs r with
      | [] => none
      | d :: r2 =>
        if d = ',' then
          match parseElems fuel r2 with
          | some (vs, r3) => some (v :: vs, r3)
          | none => none
        else if d = ']' then some ([v], r2)
        else none
/-- Members of a non-empty object up to and including the closing brace; the
properties read so far are threaded through in definition order. -/
def parseMembers : Nat → List (String × JSValue) → List Char →
    Option (List (String × JSValue) × List Char)
  | 0, _, _ => none
  | fuel + 1, acc, cs =>
    match skipWs cs with
    | [] => none
    | q :: r =>
      if q = '"' then
        match parseChars r.length r with
        | none => none
        | some (k, r1) =>
          match skipWs r1 with
          | [] => none
          | col :: r2 =>
            if col = ':' then
              match parseValue fuel r2 with
              | none => none
              | some (v, r3) =>
                match skipWs r3 with
                | [] => none
                | d :: r4 =>
                  if d = ',' then parseMembers fuel (setProp acc (String.mk k) v) r4
                  else if d = Char.ofNat 125 then some (setProp acc (String.mk k) v, r4)
                  else none
            else none
      else none
end

/-- The value denoted by a text, or a `SyntaxError`. Every nested call
consumes a character at least every second step, so the bound is never
reached. -/
def parse (s : String) : Except JSError JSValue :=
  match parseValue (2 * s.data.length + 2) s.data with
  | some (v, rest) =>
    match skipWs rest with
    | [] => .ok v
    | _ :: _ => .error .syntaxError
  | none => .error .syntaxError

end JSON

/-! ## localStorage -/

/-- The key-value store behind `localStorage`. -/
abbrev Storage := String → Option String

/-- Reads a key: `localStorage.getItem(k)`, `none` standing for `null`. -/
def Storage.getItem (st : Storage) (k : String) : Option String := st k

/-- Writes a key: `localStorage.setItem(k, v)`. -/
def Storage.setItem (st : Storage) (k v : String) : Storage :=
  fun j => if j = k then some v else st j

/-- Deletes a key: `localStorage.removeItem(k)`. -/
def Storage.removeItem (st : Storage) (k : String) : Storage :=
  fun j => if j = k then none else st j

/-! ## Auth (local only) -/

/-- Storage key of the signed-in user. -/
def LS_USER_KEY : String := "ll_user"

/-- Prefix of every wishlist key. -/
def LS_WL_PREFIX : String := "ll_wishlist_"

/-- The currently signed in user, or the empty string if none. -/
def currentUser (st : Storage) : String :=
  orStr (st.getItem LS_USER_KEY) ""

/-- Set the current user; the empty string logs the user out. -/
def setUser (u : String) (st : Storage) : Storage :=
  if u ≠ "" then st.setItem LS_USER_KEY u else st.removeItem LS_USER_KEY

/-! ## Wishlist storage -/

/-- Key of the current user's wishlist. -/
def wlKey (st : Storage) : String :=
  LS_WL_PREFIX ++ orStr (some (currentUser st)) "_anon"

/-- The wishlist read back from storage; a text that fails to parse yields
the empty array. -/
def getWishlist (st : Storage) : JSValue :=
  match JSON.parse (orStr (st.getItem (wlKey st)) "[]") with
  | .ok v => v
  | .error _ => .arr []

/-- Write a wishlist back to storage. -/
def setWishlist (arr : JSValue) (st : Storage) : Storage :=
  st.setItem (wlKey st) (JSON.stringify arr)

/-- What a call leaves behind: its completion (a returned value, `none` for
`undefined`, or a thrown exception) and the storage. -/
structure Outcome where
  result : Except JSError (Option JSValue)
  storage : Storage

/-- The bag of optional fields handed to `addToWishlist`; `none` is an
absent (or `null`) field. -/
structure PartialEntry where
  title : Option String := none
  author : Option String := none
  url : Option String := none
  source : Option String := none
  isbn : Option String := none
  assignee : Option String := none
  note : Option String := none
  photo : Option String := none

/-- The substring `s.slice(2, 6)`. -/
def slice2to6 (s : String) : String := String.mk ((s.data.drop 2).take 4)

/-- The id minted by `addToWishlist`: `Date.now() + "_" +
Math.random().toString(36).slice(2,6)`, with `rnd` the base-36 rendering of
the random draw. A clock reading is an integer far below `10^21`, the range in
which the number-to-string conversion writes plain decimal digits. -/
def newId (now : Nat) (rnd : String) : String :=
  toString now ++ "_" ++ slice2to6 rnd

/-- The expression `item.photo || null`. -/
def photoOrNull (p : Option String) : JSValue :=
  match p with
  | some s => if s = "" then .null else .str s
  | none => .null

/-- The object literal pushed by `addToWishlist`. -/
def newEntry (id : String) (item : PartialEntry) : JSValue :=
  .obj [("id", .str id),
        ("title", .str (orStr item.title "Untitled")),
        ("author", .str (orStr item.author "")),
        ("url", .str (orStr item.url "")),
        ("source", .str (orStr item.source "")),
        ("isbn", .str (orStr item.isbn "")),
        ("assignee", .str (orStr item.assignee "")),
        ("note", .str (orStr item.note "")),
        ("photo", photoOrNull item.photo)]

/-- The call `wl.push(x)`: only arrays have a `push` method. -/
def arrayPush (wl x : JSValue) : Except JSError JSValue :=
  match wl with
  | .arr xs => .ok (.arr (xs ++ [x]))
  | _ => .error .typeError

/-- Add an item to the wishlist. The function has no `return` statement, so
a normal completion yields `undefined`. -/
def addToWishlist (now : Nat) (rnd : String) (item : PartialEntry) (st : Storage) : Outcome :=
  let wl := getWishlist st
  let id := newId now rnd
  match arrayPush wl (newEntry id item) with
  | .error e => ⟨.error e, st⟩
  | .ok wl2 => ⟨.ok none, setWishlist wl2 st⟩

/-- The property read `x.id`: throws on `null`, is an own-property lookup on
an object, and is `undefined` on every other JSON value. -/
def getId (x : JSValue) : Except JSError (Option JSValue) :=
  match x with
  | .null => .error .typeError
  | .obj ps => .ok (lookupProp "id" ps)
  | _ => .ok none

/-- Strict equality `v === s` of a property value with a string. -/
def strictEqStr (v : Option JSValue) (s : String) : Bool :=
  match v with
  | some (.str t) => t = s
  | _ => false

/-- The elements kept by `filter(x => x.id !== id)`, visited in order. -/
def filterNotId (id : String) : List JSValue → Except JSError (List JSValue)
  | [] => .ok []
  | x :: xs =>
    match getId x with
    | .error e => .error e
    | .ok v =>
      match filterNotId id xs with
      | .error e => .error e
      | .ok ys => if strictEqStr v id then .ok ys else .ok (x :: ys)

/-- Remove an entry from the wishlist by id. -/
def removeFromWishlist (id : String) (st : Storage) : Outcome :=
  match getWishlist st with
  | .arr xs =>
    match filterNotId id xs with
    | .error e => ⟨.error e, st⟩
    | .ok wl => ⟨.ok none, setWishlist (.arr wl) st⟩
  | _ => ⟨.error .typeError, st⟩

/-- The callback `x => x.id === id ? {...x, assignee: name} : x`. Only an
object can own an `id`, so the spread is only ever applied to objects. -/
def assignOne (id name : String) (x : JSValue) : Except JSError JSValue :=
  match x with
  | .null => .error .typeError
  | .obj ps =>
    if strictEqStr (lookupProp "id" ps) id then .ok (.obj (setProp ps "assignee" (.str name)))
    else .ok x
  | _ => .ok x

/-- The array built by `map` with the callback above, visited in order. -/
def mapAssign (id name : String) : List JSValue → Except JSError (List JSValue)
  | [] => .ok []
  | x :: xs =>
    match assignOne id name x with
    | .error e => .error e
    | .ok y =>
      match mapAssign id name xs with
      | .error e => .error e
      | .ok ys => .ok (y :: ys)

/-- Update the assignee for a given wishlist item. -/
def updateAssignee (id name : String) (st : Storage) : Outcome :=
  match getWishlist st with
  | .arr xs =>
    match mapAssign id name xs with
    | .error e => ⟨.error e, st⟩
    | .ok wl => ⟨.ok none, setWishlist (.arr wl) st⟩
  | _ => ⟨.error .typeError, st⟩

/-! ## Well-formed wishlists -/

/-- A wishlist entry with the nine fields of the data model. -/
structure Entry where
  id : String
  title : String
  author : String
  url : String
  source : String
  isbn : String
  assignee : String
  note : String
  photo : Option String
  deriving DecidableEq

/-- The photo field as a value: a data URL or `null`. -/
def photoJS (p : Option String) : JSValue :=
  match p with
  | some s => .str s
  | none => .null

/-- The object that stands for an entry. -/
def Entry.toJS (e : Entry) : JSValue :=
  .obj [("id", .str e.id),
        ("title", .str e.title),
        ("author", .str e.author),
        ("url", .str e.url),
        ("source", .str e.source),
        ("isbn", .str e.isbn),
        ("assignee", .str e.assignee),
        ("note", .str e.note),
        ("photo", photoJS e.photo)]

/-- The array that stands for a list of entries. -/
def wishlistJS (L : List Entry) : JSValue := .arr (L.map Entry.toJS)

/-- The entry created by `addToWishlist`. -/
def createdEntry (now : Nat) (rnd : String) (item : PartialEntry) : Entry where
  id := newId now rnd
  title := orStr item.title "Untitled"
  author := orStr item.author ""
  url := orStr item.url ""
  source := orStr item.source ""
  isbn := orStr item.isbn ""
  assignee := orStr item.assignee ""
  note := orStr item.note ""
  photo := match item.photo with
    | some s => if s = "" then none else some s
    | none => none

/-- The entry `e` with `name` as assignee when its id is `id`, and `e` itself
otherwise: what the assignee patch is meant to do on one entry. -/
def Entry.assignIf (id name : String) (e : Entry) : Entry :=
  if e.id = id then ⟨e.id, e.title, e.author, e.url, e.source, e.isbn, name, e.note, e.photo⟩
  else e

/-- One click on an add button: the clock reading, the base-36 rendering of
the random draw and the candidate item. -/
structure AddCall where
  now : Nat
  rnd : String
  item : PartialEntry

/-- The entry a call creates. -/
def AddCall.created (c : AddCall) : Entry := createdEntry c.now c.rnd c.item

/-- Calls of `addToWishlist` in immediate succession. -/
def addAll : List AddCall → Storage → Storage
  | [], st => st
  | c :: cs, st => addAll cs (addToWishlist c.now c.rnd c.item st).storage

/-- The number a list of decimal digit characters stands for, most significant
digit first. -/
def decodeDecimal (l : List Char) : Nat :=
  Nat.ofDigits 10 ((l.map (fun c => c.toNat - 48)).reverse)

/-! ## Concrete devices -/

/-- A storage with nothing in it: a first visit, nobody signed in. -/
def emptyStorage : Storage := fun _ => none

/-- A device where alice is signed in and has saved two books. -/
def aliceStorage : Storage := fun k =>
  if k = "ll_user" then some "alice"
  else if k = "ll_wishlist_alice" then
    some ("[\x7b\"id\":\"1700000000000_i\",\"title\":\"Dune\",\"author\":\"\",\"url\":\"\"," ++
      "\"source\":\"manual\",\"isbn\":\"\",\"assignee\":\"\",\"note\":\"\",\"photo\":null\x7d," ++
      "\x7b\"id\":\"1700000000001_k3x9\",\"title\":\"Emma\",\"author\":\"Jane Austen\"," ++
      "\"url\":\"https://www.gutenberg.org\",\"source\":\"ebooks\",\"isbn\":\"\"," ++
      "\"assignee\":\"Sam\",\"note\":\"\",\"photo\":null\x7d]")
  else none

/-- A device where nobody is signed in and the anonymous wishlist key holds
the given text. -/
def corruptStorage (text : String) : Storage := fun k =>
  if k = "ll_wishlist__anon" then some text else none

/-- The first book on alice's list. -/
def duneEntry : Entry := ⟨"1700000000000_i", "Dune", "", "", "manual", "", "", "", none⟩

/-- The second book on alice's list. -/
def emmaEntry : Entry :=
  ⟨"1700000000001_k3x9", "Emma", "Jane Austen", "https://www.gutenberg.org", "ebooks", "", "Sam",
    "", none⟩

/-- The candidate of the manual add form for the title Dune. -/
def duneItem : PartialEntry := ⟨some "Dune", none, none, some "manual", none, none, none, none⟩

/-- The candidate of a table row for the title Emma. -/
def emmaItem : PartialEntry :=
  ⟨some "Emma", none, some "https://www.gutenberg.org", some "ebooks", none, none, none, none⟩

/-- Two clicks within the same millisecond whose random draws are both
`0.5`, rendered `0.i` in base 36. -/
def twoClicks : List AddCall :=
  [⟨1700000000000, "0.i", duneItem⟩, ⟨1700000000000, "0.i", emmaItem⟩]

/-- Two clicks one millisecond apart. -/
def twoSlowClicks : List AddCall :=
  [⟨1700000000000, "0.i", duneItem⟩, ⟨1700000000001, "0.i", emmaItem⟩]

/-! ## Catalog feed: poetry sites -/

/-- White space and line terminators, the characters `String.prototype.trim`
strips. -/
def isTrimChar (c : Char) : Bool :=
  c.toNat = 9 || c.toNat = 10 || c.toNat = 11 || c.toNat = 12 || c.toNat = 13 ||
  c.toNat = 32 || c.toNat = 160 || c.toNat = 5760 ||
  (8192 ≤ c.toNat && c.toNat ≤ 8202) || c.toNat = 8232 || c.toNat = 8233 ||
  c.toNat = 8239 || c.toNat = 8287 || c.toNat = 12288 || c.toNat = 65279

/-- Strip leading white space. -/
def trimStart : List Char → List Char
  | [] => []
  | c :: cs => if isTrimChar c then trimStart cs else c :: cs

/-- Strip trailing white space. -/
def trimEnd : List Char → List Char
  | [] => []
  | c :: cs => if isTrimChar c && (trimEnd cs).isEmpty then [] else c :: trimEnd cs

/-- The method `s.trim()`. -/
def trim (s : String) : String := String.mk (trimEnd (trimStart s.data))

/-- Match a lower-case ASCII literal at the start of the input without regard
to case, as a regular expression with the `i` flag does; returns what follows
the match. -/
def matchIgnoreCase : List Char → List Char → Option (List Char)
  | [], cs => some cs
  | _ :: _, [] => none
  | a :: p, c :: cs => if c.toLower = a then matchIgnoreCase p cs else none

/-- The test `/^https?:\/\//i.test(d)`. -/
def testHttpScheme (d : String) : Bool :=
  match matchIgnoreCase ['h', 't', 't', 'p'] d.data with
  | none => false
  | some r =>
    (match matchIgnoreCase ['s'] r with
      | some r2 => (matchIgnoreCase [':', '/', '/'] r2).isSome
      | none => false) ||
    (matchIgnoreCase [':', '/', '/'] r).isSome

/-- The replacement `d.replace(/^www\./i, "")`. -/
def dropWww (d : String) : String :=
  match matchIgnoreCase ['w', 'w', 'w', '.'] d.data with
  | some r => String.mk r
  | none => d

/-- Build a full URL from a domain; `none` stands for `null`, both as the
argument and as the result. -/
def urlFromDomain (d : Option String) : Option String :=
  match d with
  | none => none
  | some d0 =>
    if d0 = "" then none
    else
      let d1 := trim d0
      if !testHttpScheme d1 then some ("https://" ++ dropWww d1) else some d1

/-- The method `s.toLowerCase()` on ASCII letters; other characters are left
as they are. -/
def toLowerCase (s : String) : String := String.mk (s.data.map Char.toLower)

/-- Whether the first list starts the second. -/
def startsWith : List Char → List Char → Bool
  | [], _ => true
  | _ :: _, [] => false
  | a :: p, c :: cs => a = c && startsWith p cs

/-- Whether the first list occurs somewhere in the second. -/
def occursIn (sub : List Char) : List Char → Bool
  | [] => startsWith sub []
  | c :: cs => startsWith sub (c :: cs) || occursIn sub cs

/-- The method `s.includes(sub)`. -/
def includes (s sub : String) : Bool := occursIn sub.data s.data

/-- Convert a human-readable label into one of the four types; `none` stands
for a missing label. -/
def typeFromLabel (label : Option String) : String :=
  let s := toLowerCase (orStr label "")
  if includes s "mp3" || includes s "ogg" then "audiobook"
  else if includes s "pdf" || includes s "various" || includes s "all formats" then
    "downloadable"
  else if includes s "online" && includes s "audio" then "mixed"
  else if includes s "handwritten" then "online"
  else if includes s "mixed" then "mixed"
  else if includes s "online" then "online"
  else "online"

/-- The four types of a catalog row. -/
def rowTypes : List String := ["downloadable", "online", "audiobook", "mixed"]

/-- Raw poetry source data. Each row: name, domain or URL, label, extra
notes. -/
def poetryRaw : List (String × String × String × String) :=
  [("GigglePoetry.com", "gigglepoetry.com", "Online viewing only", "Children’s poetry activities & readings"),
   ("PoemHunter.com", "poemhunter.com", "PDF", "Poems & poets, some downloadable PDFs"),
   ("e-booksdirectory.com", "e-booksdirectory.com", "various formats", "Aggregated ebooks incl. poetry"),
   ("ebooks.adelaide.edu.au", "ebooks.adelaide.edu.au", "Online viewing only", "University of Adelaide ebooks (archive)"),
   ("Literatureproject.com", "literatureproject.com", "Online viewing only", "Classic texts to read online"),
   ("Alharris.com", "alharris.com", "PDF", "Poetry PDFs by Al Harris (site availability varies)"),
   ("Smashwords.com", "smashwords.com", "All formats", "Indie poetry, many free titles"),
   ("Manybooks.net", "manybooks.net", "All formats", "Large catalog incl. poetry"),
   ("Poemsforfree.com", "poemsforfree.com", "Online viewing only", "Occasional printable poems"),
   ("Familyfriendpoems.com", "familyfriendpoems.com", "Online viewing only", "Popular themed poems & submissions"),
   ("Lovepoemsandquotes.com", "lovepoemsandquotes.com", "Online viewing only", "Love poems & quote collections"),
   ("Voicesnet.org", "voicesnet.org", "Online viewing only", "Poet community & contests"),
   ("Poetrypoem.com", "poetrypoem.com", "Online viewing only", "Personal poetry pages & posts"),
   ("Poetryintranslation.com", "poetryintranslation.com", "Online viewing only", "Classic poetry in translation"),
   ("Poetrysoup.com", "poetrysoup.com", "Online viewing only", "Poet social site & forms"),
   ("Firebirdpoetry.com", "firebirdpoetry.com", "Online viewing only", "Poetry resource (availability may vary)"),
   ("Short-love-poem.com", "short-love-poem.com", "Online viewing only", "Short romantic poems"),
   ("Poets.org", "poets.org", "Online viewing only", "Academy of American Poets — poems & essays"),
   ("Librivox.org", "librivox.org", "MP3", "Public-domain poetry audiobooks"),
   ("Poets on Poets", "", "Online viewing, MP3, OGG", "Poets discussing poets (assorted media)"),
   ("Audio Poetry", "", "Online viewing, MP3, OGG", "Audio poetry collections (assorted)"),
   ("Free Poems on Demand", "", "Handwritten", "Request handwritten poems"),
   ("Poetry 180", "www.loc.gov/poetry/180/", "Online viewing only", "Poetry for each of the 180 days of school"),
   ("The Poetry Corner", "", "Online viewing only", "Poetry portal/collection"),
   ("Red House Books", "", "Online viewing only", "Poetry & book blog/archives"),
   ("Poetry Explorer", "poetryexplorer.net", "Online viewing only", "Searchable anthology explorer"),
   ("Wattpad.com", "wattpad.com", "Online viewing only", "User fiction & poetry"),
   ("Protagonize.com", "protagonize.com", "Online viewing only", "Collaborative writing (historic/archived)"),
   ("Scrapbook.com", "scrapbook.com", "Online viewing only", "Poem/quote resources for crafts"),
   ("TeenInk.com", "teenink.com", "Online viewing only", "Teen poetry & essays"),
   ("WritersLounge.net", "", "Online viewing only", "Writing community (availability varies)"),
   ("OutlawPoetry.com", "outlawpoetry.com", "Online viewing only", "Indie poetry & journals"),
   ("Poetry Library", "poetrylibrary.org.uk", "Online viewing only, Audio", "UK poetry library & recordings"),
   ("Hello Poetry", "hellopoetry.com", "Online viewing only", "Poetry posting community"),
   ("Poetry Archive", "poetryarchive.org", "Online viewing only, Audio", "Recorded poets reading their work"),
   ("Poe Stories", "poestories.com", "Online viewing only", "Edgar Allan Poe texts & notes"),
   ("Poetry4kids.com", "poetry4kids.com", "Online viewing only", "Kenn Nesbitt’s children’s poetry"),
   ("Poetry on a Roll", "", "Online viewing only", "Poetry blog/collection"),
   ("OldPoetry.com", "oldpoetry.com", "Online viewing only", "Classic & community poetry"),
   ("Gratefulness.org", "gratefulness.org", "Online viewing only", "Poems on gratitude & reflection")]

/-- A normalized catalog row. -/
structure CatalogRow where
  n : Nat
  name : String
  url : Option String
  type : String
  notes : String
  deriving DecidableEq

/-- The expression `[label, extraNotes].filter(Boolean).join(" — ")`. -/
def joinNotes (label extraNotes : String) : String :=
  if label = "" then extraNotes
  else if extraNotes = "" then label
  else label ++ " — " ++ extraNotes

/-- The callback that turns a raw row and its index into a catalog row. -/
def poetryRow (idx : Nat) (row : String × String × String × String) : CatalogRow :=
  ⟨idx + 1, row.1, if row.2.1 = "" then none else urlFromDomain (some row.2.1),
    typeFromLabel (some row.2.2.1), joinNotes row.2.2.1 row.2.2.2⟩

/-- The normalized poetry data. -/
def poetryData : List CatalogRow := poetryRaw.mapIdx poetryRow

/-! ## Clearing -/

/-- The click handler of the clear button: `setWishlist([])` once the user
has confirmed, nothing otherwise. -/
def clearWishlistClick (confirmed : Bool) (st : Storage) : Storage :=
  if confirmed then setWishlist (.arr []) st else st

/-- The spec's words "begins case-insensitively with": the literal `lit`,
written in lower case, starts `d` when case is disregarded. -/
def beginsIgnoringCase (lit d : String) : Bool :=
  (matchIgnoreCase lit.data d.data).isSome

/-! # Theorems -/

/-! ## The JSON model on sample texts -/

theorem parse_samples :
    JSON.parse "null" = .ok .null ∧
    JSON.parse " [ ] " = .ok (.arr []) ∧
    JSON.parse "[1,-2.5e+3 , \"a\\n\\u0041\"]" =
      .ok (.arr [.num "1", .num "-2.5e+3", .str "a\nA"]) ∧
    JSON.parse "\x7b\"b\": 1, \"2\": [], \"b\": null, \"1\": true\x7d" =
      .ok (.obj [("1", .bool true), ("2", .arr []), ("b", .null)]) ∧
    JSON.parse "\"\\ud83d\\ude00\"" = .ok (.str "😀") ∧
    JSON.parse "[1,]" = .error .syntaxError ∧
    JSON.parse "01" = .error .syntaxError ∧
    JSON.parse "" = .error .syntaxError :=
  ⟨rfl, rfl, rfl, rfl, rfl, rfl, rfl, rfl⟩

theorem stringify_sample :
    JSON.stringify (.arr [.str "a\"\\\n\x01", .obj [("k", .null)]]) =
      "[\"a\\\"\\\\\\n\\u0001\",\x7b\"k\":null\x7d]" := rfl

/-! ## Reading back what `JSON.stringify` wrote -/

namespace JSON

theorem hex4_hexDigit : ∀ n, n < 32 →
    hex4 '0' '0' (hexDigit (n / 16)) (hexDigit (n % 16)) = some n := by
  decide

theorem parseChars_quote (f : Nat) (rest : List Char) :
    parseChars (f + 1) ('"' :: rest) = some ([], rest) := by
  rfl

theorem parseChars_plain (f : Nat) (c : Char) (rest : List Char) (h1 : c ≠ '"') (h2 : c ≠ '\\')
    (h3 : ¬ c.toNat < 32) :
    parseChars (f + 1) (c :: rest) = (parseChars f rest).map (fun p => (c :: p.1, p.2)) := by
  rw [parseChars]
  simp only [h1, h2, h3, if_false]

theorem parseChars_escaped (f : Nat) (ch : Char) (cs rest : List Char)
    (h : readEscape cs = some (ch, rest)) :
    parseChars (f + 1) ('\\' :: cs) = (parseChars f rest).map (fun p => (ch :: p.1, p.2)) := by
  rw [parseChars]
  simp [h]

theorem readEscape_escapeChar (c : Char) (rest : List Char)
    (h : c = '"' ∨ c = '\\' ∨ c.toNat < 32) :
    ∃ t, escapeChar c = '\\' :: t ∧ readEscape (t ++ rest) = some (c, rest) := by
  unfold escapeChar
  split_ifs with h1 h2 h3 h4 h5 h6 h7 h8
  · subst h1; exact ⟨_, rfl, rfl⟩
  · subst h2; exact ⟨_, rfl, rfl⟩
  · subst h3; exact ⟨_, rfl, rfl⟩
  · subst h4; exact ⟨_, rfl, rfl⟩
  · subst h5; exact ⟨_, rfl, rfl⟩
  · subst h6; exact ⟨_, rfl, rfl⟩
  · subst h7; exact ⟨_, rfl, rfl⟩
  · refine ⟨_, rfl, ?_⟩
    have hx := hex4_hexDigit c.toNat h8
    have h9 : c.toNat < 55296 := by omega
    simp [readEscape, readUnicode, hx, h9]
  · simp_all


theorem parseChars_escape (s rest : List Char) :
    ∀ f, (escape s).length + 1 ≤ f → parseChars f (escape s ++ '"' :: rest) = some (s, rest) := by
  induction s with
  | nil =>
    intro f hf
    obtain ⟨g, rfl⟩ : ∃ g, f = g + 1 := ⟨f - 1, by omega⟩
    exact parseChars_quote g rest
  | cons c cs ih =>
    intro f hf
    obtain ⟨g, rfl⟩ : ∃ g, f = g + 1 := ⟨f - 1, by omega⟩
    by_cases h : c = '"' ∨ c = '\\' ∨ c.toNat < 32
    · obtain ⟨t, ht, hr⟩ := readEscape_escapeChar c (escape cs ++ '"' :: rest) h
      have hlen : (escape (c :: cs)).length = t.length + 1 + (escape cs).length := by
        simp [escape, ht]; omega
      have hg : (escape cs).length + 1 ≤ g := by omega
      have : escape (c :: cs) ++ '"' :: rest = '\\' :: (t ++ (escape cs ++ '"' :: rest)) := by
        simp [escape, ht]
      rw [this, parseChars_escaped g c _ _ hr, ih g hg]
      rfl
    · push_neg at h
      obtain ⟨h1, h2, h3⟩ := h
      have he : escapeChar c = [c] := by
        unfold escapeChar
        have h4 : c ≠ Char.ofNat 8 := by rintro rfl; exact absurd h3 (by decide)
        have h5 : c ≠ Char.ofNat 12 := by rintro rfl; exact absurd h3 (by decide)
        have h6 : c ≠ '\n' := by rintro rfl; exact absurd h3 (by decide)
        have h7 : c ≠ '\r' := by rintro rfl; exact absurd h3 (by decide)
        have h8 : c ≠ '\t' := by rintro rfl; exact absurd h3 (by decide)
        simp [h1, h2, h4, h5, h6, h7, h8]
        omega
      have hlen : (escape (c :: cs)).length = 1 + (escape cs).length := by
        simp [escape, he]; omega
      have hg : (escape cs).length + 1 ≤ g := by omega
      have : escape (c :: cs) ++ '"' :: rest = c :: (escape cs ++ '"' :: rest) := by
        simp [escape, he]
      rw [this, parseChars_plain g c _ h1 h2 (by omega), ih g hg]
      rfl

theorem quote_append (s : String) (rest : List Char) :
    quote s ++ rest = '"' :: (escape s.data ++ '"' :: rest) := by
  simp [quote]

theorem parseValue_quote (f : Nat) (s : String) (rest : List Char) :
    parseValue (f + 1) (quote s ++ rest) = some (.str s, rest) := by
  rw [quote_append, parseValue]
  simp (disch := omega) [skipWs, isWs, parseChars_escape]

theorem parseValue_null (f : Nat) (rest : List Char) :
    parseValue (f + 1) ('n' :: 'u' :: 'l' :: 'l' :: rest) = some (.null, rest) := by
  rfl


theorem parseMembers_more (f : Nat) (acc : List (String × JSValue)) (k : String) (v : JSValue)
    (t rest : List Char) (hv : ∀ r, parseValue f (t ++ r) = some (v, r)) :
    parseMembers (f + 1) acc (quote k ++ (':' :: (t ++ (',' :: rest)))) =
      parseMembers f (setProp acc k v) rest := by
  rw [quote_append, parseMembers]
  simp (disch := omega) [skipWs, isWs, parseChars_escape, hv (',' :: rest)]

theorem parseMembers_last (f : Nat) (acc : List (String × JSValue)) (k : String) (v : JSValue)
    (t rest : List Char) (hv : ∀ r, parseValue f (t ++ r) = some (v, r)) :
    parseMembers (f + 1) acc (quote k ++ (':' :: (t ++ (Char.ofNat 125 :: rest)))) =
      some (setProp acc k v, rest) := by
  rw [quote_append, parseMembers]
  simp (disch := omega) [skipWs, isWs, parseChars_escape, hv (Char.ofNat 125 :: rest)]

theorem parseValue_object (f : Nat) (k : String) (tail r : List Char)
    (ps : List (String × JSValue)) (h : parseMembers f [] (quote k ++ tail) = some (ps, r)) :
    parseValue (f + 1) (Char.ofNat 123 :: (quote k ++ tail)) = some (.obj ps, r) := by
  rw [parseValue]
  rw [quote_append] at h ⊢
  simp [skipWs, isWs, h]

theorem parseValue_photo (f : Nat) (p : Option String) (r : List Char) :
    parseValue (f + 1) (render (photoJS p) ++ r) = some (photoJS p, r) := by
  cases p with
  | none => exact parseValue_null f r
  | some s => exact parseValue_quote f s r

theorem parseValue_entry (f : Nat) (e : Entry) (rest : List Char) :
    parseValue (f + 11) (render e.toJS ++ rest) = some (e.toJS, rest) := by
  have hq : ∀ g s r, parseValue (g + 1) (quote s ++ r) = some (.str s, r) := parseValue_quote
  simp only [Entry.toJS, render, renderProps, List.append_assoc, List.cons_append,
    List.nil_append]
  apply parseValue_object
  rw [parseMembers_more (f + 9) _ "id" (.str e.id) (quote e.id) _ (hq _ _),
    parseMembers_more (f + 8) _ "title" (.str e.title) (quote e.title) _ (hq _ _),
    parseMembers_more (f + 7) _ "author" (.str e.author) (quote e.author) _ (hq _ _),
    parseMembers_more (f + 6) _ "url" (.str e.url) (quote e.url) _ (hq _ _),
    parseMembers_more (f + 5) _ "source" (.str e.source) (quote e.source) _ (hq _ _),
    parseMembers_more (f + 4) _ "isbn" (.str e.isbn) (quote e.isbn) _ (hq _ _),
    parseMembers_more (f + 3) _ "assignee" (.str e.assignee) (quote e.assignee) _ (hq _ _),
    parseMembers_more (f + 2) _ "note" (.str e.note) (quote e.note) _ (hq _ _),
    parseMembers_last (f + 1) _ "photo" (photoJS e.photo) (render (photoJS e.photo)) _
      (parseValue_photo _ _)]
  rfl


theorem parseElems_entries (L : List Entry) (e : Entry) (rest : List Char) :
    ∀ f, parseElems (f + L.length + 12) (renderElems ((e :: L).map Entry.toJS) ++ (']' :: rest)) =
      some ((e :: L).map Entry.toJS, rest) := by
  induction L generalizing e with
  | nil =>
    intro f
    rw [show f + ([] : List Entry).length + 12 = (f + 11) + 1 from rfl, parseElems]
    simp only [List.map, renderElems]
    rw [parseValue_entry]
    simp [skipWs, isWs]
  | cons d L ih =>
    intro f
    rw [show f + (d :: L).length + 12 = (f + L.length + 12) + 1 by simp; omega, parseElems]
    simp only [List.map, renderElems, List.append_assoc, List.cons_append]
    rw [show f + L.length + 12 = (f + L.length + 1) + 11 by omega, parseValue_entry]
    have := ih d (f := f)
    simp only [List.map] at this
    rw [show f + L.length + 1 + 11 = f + L.length + 12 by omega]
    simp [skipWs, isWs, this]

theorem renderElems_entry_head (e : Entry) (xs : List JSValue) :
    ∃ t, renderElems (e.toJS :: xs) = Char.ofNat 123 :: t := by
  refine ⟨(renderElems (e.toJS :: xs)).tail, ?_⟩
  cases xs <;> simp only [renderElems, Entry.toJS, render, List.cons_append, List.tail_cons]

theorem parseValue_wishlist (L : List Entry) (rest : List Char) :
    ∀ f, parseValue (f + L.length + 12) (render (wishlistJS L) ++ rest) =
      some (wishlistJS L, rest) := by
  intro f
  cases L with
  | nil => rfl
  | cons e L =>
    have h := parseElems_entries L e rest f
    obtain ⟨t, ht⟩ := renderElems_entry_head e (L.map Entry.toJS)
    simp only [wishlistJS, render, List.map, List.append_assoc, List.cons_append,
      List.nil_append] at h ⊢
    rw [ht] at h ⊢
    rw [show f + (e :: L).length + 12 = (f + L.length + 12) + 1 by
      simp only [List.length_cons]; omega, parseValue]
    simp only [List.cons_append] at h
    simp [skipWs, isWs, h]

theorem render_entry_length (e : Entry) : 11 ≤ (render e.toJS).length := by
  simp only [Entry.toJS, render, renderProps, quote, List.length_cons, List.length_append]
  omega

theorem render_wishlist_length (L : List Entry) :
    11 * L.length + 2 ≤ (render (wishlistJS L)).length := by
  have h : ∀ L : List Entry, 11 * L.length ≤ (renderElems (L.map Entry.toJS)).length := by
    intro L
    induction L with
    | nil => simp
    | cons e L ih =>
      have he := render_entry_length e
      cases L with
      | nil =>
        simp only [List.map, renderElems, List.length_cons, List.length_nil]
        omega
      | cons d L =>
        simp only [List.map, renderElems, List.length_append, List.length_cons] at ih ⊢
        omega
  have := h L
  simp only [wishlistJS, render, List.length_cons, List.length_append, List.length_nil]
  omega

theorem parse_stringify_wishlist (L : List Entry) :
    parse (stringify (wishlistJS L)) = .ok (wishlistJS L) := by
  cases L with
  | nil => rfl
  | cons e L =>
    have hlen := render_wishlist_length (e :: L)
    have h := parseValue_wishlist (e :: L) []
      (2 * (render (wishlistJS (e :: L))).length + 2 - ((e :: L).length + 12))
    have hf : 2 * (render (wishlistJS (e :: L))).length + 2 - ((e :: L).length + 12)
        + (e :: L).length + 12 = 2 * (render (wishlistJS (e :: L))).length + 2 := by
      simp only [List.length_cons] at hlen ⊢
      omega
    rw [hf, List.append_nil] at h
    simp [parse, stringify, h, skipWs]

end JSON
/-! ## Storage and key lemmas -/

theorem getItem_setItem_same (st : Storage) (k v : String) :
    (st.setItem k v).getItem k = some v := by
  simp [Storage.setItem, Storage.getItem]

theorem getItem_setItem_ne (st : Storage) (k v j : String) (h : j ≠ k) :
    (st.setItem k v).getItem j = st.getItem j := by
  simp [Storage.setItem, Storage.getItem, h]

theorem getItem_removeItem_ne (st : Storage) (k j : String) (h : j ≠ k) :
    (st.removeItem k).getItem j = st.getItem j := by
  simp [Storage.removeItem, Storage.getItem, h]

theorem getItem_removeItem_same (st : Storage) (k : String) :
    (st.removeItem k).getItem k = none := by
  simp [Storage.removeItem, Storage.getItem]

theorem wl_key_ne_user_key (x : String) : LS_WL_PREFIX ++ x ≠ LS_USER_KEY := by
  intro h
  have := congrArg String.data h
  simp [LS_WL_PREFIX, LS_USER_KEY] at this

theorem wlKey_ne_user (st : Storage) : wlKey st ≠ LS_USER_KEY := wl_key_ne_user_key _

theorem setUser_getItem_ne (u : String) (st : Storage) (k : String) (h : k ≠ LS_USER_KEY) :
    (setUser u st).getItem k = st.getItem k := by
  unfold setUser
  split_ifs
  · exact getItem_setItem_ne st _ _ _ h
  · exact getItem_removeItem_ne st _ _ h

theorem currentUser_setUser (u : String) (st : Storage) : currentUser (setUser u st) = u := by
  unfold setUser currentUser
  split_ifs with h
  · rw [getItem_setItem_same]; simp [orStr, h]
  · rw [getItem_removeItem_same]; simp only [ne_eq, not_not] at h; simp [orStr, h]

theorem currentUser_setItem_ne (st : Storage) (k v : String) (h : k ≠ LS_USER_KEY) :
    currentUser (st.setItem k v) = currentUser st := by
  unfold currentUser
  rw [getItem_setItem_ne st k v LS_USER_KEY (Ne.symm h)]

theorem wlKey_congr (s t : Storage) (h : currentUser s = currentUser t) : wlKey s = wlKey t := by
  unfold wlKey; rw [h]

theorem wlKey_setWishlist (v : JSValue) (st : Storage) : wlKey (setWishlist v st) = wlKey st :=
  wlKey_congr _ _ (currentUser_setItem_ne st _ _ (wlKey_ne_user st))

theorem stringify_wishlist_ne_empty (L : List Entry) : JSON.stringify (wishlistJS L) ≠ "" := by
  intro h
  have := congrArg String.data h
  simp [JSON.stringify, wishlistJS, JSON.render] at this

theorem getWishlist_setWishlist (L : List Entry) (st : Storage) :
    getWishlist (setWishlist (wishlistJS L) st) = wishlistJS L := by
  unfold getWishlist
  rw [wlKey_setWishlist]
  unfold setWishlist
  rw [getItem_setItem_same]
  simp [orStr, stringify_wishlist_ne_empty, JSON.parse_stringify_wishlist]

theorem newEntry_eq (now : Nat) (rnd : String) (item : PartialEntry) :
    newEntry (newId now rnd) item = (createdEntry now rnd item).toJS := by
  unfold newEntry createdEntry Entry.toJS photoOrNull photoJS
  cases item.photo with
  | none => rfl
  | some s => by_cases h : s = "" <;> simp [h]

theorem filterNotId_entries (id : String) (L : List Entry) :
    filterNotId id (L.map Entry.toJS) = .ok ((L.filter (fun e => e.id ≠ id)).map Entry.toJS) := by
  induction L with
  | nil => rfl
  | cons e L ih =>
    have hid : getId e.toJS = .ok (some (.str e.id)) := rfl
    simp only [List.map, filterNotId, hid, ih, strictEqStr]
    by_cases h : e.id = id <;> simp [h, List.filter]

theorem assignOne_entry (id name : String) (e : Entry) :
    assignOne id name e.toJS = .ok (e.assignIf id name).toJS := by
  have hl : lookupProp "id" [("id", .str e.id), ("title", .str e.title),
      ("author", .str e.author), ("url", .str e.url), ("source", .str e.source),
      ("isbn", .str e.isbn), ("assignee", .str e.assignee), ("note", .str e.note),
      ("photo", photoJS e.photo)] = some (.str e.id) := rfl
  have hs : setProp [("id", .str e.id), ("title", .str e.title),
      ("author", .str e.author), ("url", .str e.url), ("source", .str e.source),
      ("isbn", .str e.isbn), ("assignee", .str e.assignee), ("note", .str e.note),
      ("photo", photoJS e.photo)] "assignee" (.str name) =
      [("id", .str e.id), ("title", .str e.title),
      ("author", .str e.author), ("url", .str e.url), ("source", .str e.source),
      ("isbn", .str e.isbn), ("assignee", .str name), ("note", .str e.note),
      ("photo", photoJS e.photo)] := rfl
  unfold Entry.assignIf assignOne
  simp only [Entry.toJS, hl, hs, strictEqStr]
  by_cases h : e.id = id <;> simp [h, Entry.toJS]

theorem mapAssign_entries (id name : String) (L : List Entry) :
    mapAssign id name (L.map Entry.toJS) = .ok ((L.map (Entry.assignIf id name)).map Entry.toJS) := by
  induction L with
  | nil => rfl
  | cons e L ih => simp only [List.map, mapAssign, assignOne_entry, ih]

theorem addToWishlist_wf (now : Nat) (rnd : String) (item : PartialEntry) (st : Storage)
    (L : List Entry) (h : getWishlist st = wishlistJS L) :
    addToWishlist now rnd item st =
      ⟨.ok none, setWishlist (wishlistJS (L ++ [createdEntry now rnd item])) st⟩ := by
  simp [addToWishlist, h, wishlistJS, arrayPush, newEntry_eq]

theorem removeFromWishlist_wf (id : String) (st : Storage)
    (L : List Entry) (h : getWishlist st = wishlistJS L) :
    removeFromWishlist id st =
      ⟨.ok none, setWishlist (wishlistJS (L.filter (fun e => e.id ≠ id))) st⟩ := by
  unfold removeFromWishlist
  rw [h]
  simp only [wishlistJS, filterNotId_entries]

theorem updateAssignee_wf (id name : String) (st : Storage)
    (L : List Entry) (h : getWishlist st = wishlistJS L) :
    updateAssignee id name st =
      ⟨.ok none, setWishlist (wishlistJS (L.map (Entry.assignIf id name))) st⟩ := by
  unfold updateAssignee
  rw [h]
  simp only [wishlistJS, mapAssign_entries]

/-! ## Decimal rendering of the clock reading -/

theorem digitChar_toNat : ∀ d, d < 10 → (Nat.digitChar d).toNat - 48 = d := by decide

theorem digitChar_ne_underscore : ∀ d, d < 10 → Nat.digitChar d ≠ '_' := by decide

theorem toDigitsCore_eq (fuel : Nat) : ∀ (n : Nat) (ds : List Char), n < fuel → 0 < n →
    Nat.toDigitsCore 10 fuel n ds = ((Nat.digits 10 n).reverse.map Nat.digitChar) ++ ds := by
  induction fuel with
  | zero => intro n ds h; omega
  | succ fuel ih =>
    intro n ds h hn
    rw [Nat.toDigitsCore]
    by_cases h0 : n / 10 = 0
    · have hlt : n < 10 := by omega
      simp [h0, Nat.digits_of_lt 10 n (by omega) hlt, Nat.mod_eq_of_lt hlt]
    · have hd := Nat.digits_def' (b := 10) (by norm_num) hn
      simp only [h0, if_false]
      rw [ih (n / 10) _ (by omega) (by omega), hd]
      simp

theorem toDigits_eq (n : Nat) (hn : 0 < n) :
    Nat.toDigits 10 n = (Nat.digits 10 n).reverse.map Nat.digitChar := by
  rw [Nat.toDigits, toDigitsCore_eq (n + 1) n [] (by omega) hn]
  simp

theorem decodeDecimal_repr (n : Nat) : decodeDecimal (toString n).data = n := by
  show decodeDecimal (Nat.toDigits 10 n).asString.data = n
  rcases Nat.eq_zero_or_pos n with rfl | hn
  · rfl
  · rw [toDigits_eq n hn]
    simp only [List.asString, decodeDecimal, List.map_reverse, List.reverse_reverse, List.map_map]
    have : List.map ((fun c => c.toNat - 48) ∘ Nat.digitChar) (Nat.digits 10 n) = Nat.digits 10 n := by
      conv_rhs => rw [← List.map_id (Nat.digits 10 n)]
      apply List.map_congr_left
      intro d hd
      exact digitChar_toNat d (Nat.digits_lt_base (by norm_num) hd)
    rw [this, Nat.ofDigits_digits]

theorem repr_no_underscore (n : Nat) : '_' ∉ (toString n).data := by
  show '_' ∉ (Nat.toDigits 10 n).asString.data
  rcases Nat.eq_zero_or_pos n with rfl | hn
  · decide
  · rw [toDigits_eq n hn]
    simp only [List.asString, List.mem_map, List.mem_reverse, not_exists, not_and]
    intro d hd
    exact digitChar_ne_underscore d (Nat.digits_lt_base (by norm_num) hd)

theorem append_sep_inj (c : Char) : ∀ (xs ys u v : List Char), c ∉ xs → c ∉ ys →
    xs ++ c :: u = ys ++ c :: v → xs = ys ∧ u = v := by
  intro xs
  induction xs with
  | nil =>
    intro ys u v _ hy h
    cases ys with
    | nil => simpa using h
    | cons y ys =>
      simp only [List.nil_append, List.cons_append, List.cons.injEq] at h
      exact absurd (h.1 ▸ List.mem_cons_self _ _) hy
  | cons x xs ih =>
    intro ys u v hx hy h
    cases ys with
    | nil =>
      simp only [List.nil_append, List.cons_append, List.cons.injEq] at h
      exact absurd (h.1 ▸ List.mem_cons_self _ _) hx
    | cons y ys =>
      simp only [List.cons_append, List.cons.injEq] at h
      obtain ⟨h1, h2⟩ := ih ys u v (fun m => hx (List.mem_cons_of_mem _ m))
        (fun m => hy (List.mem_cons_of_mem _ m)) h.2
      exact ⟨by rw [h.1, h1], h2⟩

theorem newId_inj (a b : Nat) (r s : String) :
    newId a r = newId b s ↔ a = b ∧ slice2to6 r = slice2to6 s := by
  constructor
  · intro h
    have hd := congrArg String.data h
    simp only [newId, String.data_append, List.append_assoc] at hd
    simp only [List.singleton_append] at hd
    obtain ⟨h1, h2⟩ := append_sep_inj '_' _ _ _ _ (repr_no_underscore a) (repr_no_underscore b) hd
    refine ⟨?_, String.ext h2⟩
    rw [← decodeDecimal_repr a, ← decodeDecimal_repr b, h1]
  · rintro ⟨rfl, h⟩
    simp [newId, h]

/-! ## Scoping by actor -/

theorem getWishlist_empty : getWishlist emptyStorage = wishlistJS [] := rfl

theorem getWishlist_alice : getWishlist aliceStorage = wishlistJS [duneEntry, emmaEntry] := rfl

theorem wlKey_setUser (u : String) (st : Storage) :
    wlKey (setUser u st) = LS_WL_PREFIX ++ orStr (some u) "_anon" := by
  unfold wlKey
  rw [currentUser_setUser]

theorem append_left_cancel (p a b : String) (h : p ++ a = p ++ b) : a = b := by
  have := congrArg String.data h
  simp only [String.data_append, List.append_cancel_left_eq] at this
  exact String.ext this

/-- Supporting fact for C1: apart from the name `_anon`, actors get distinct
wishlist keys. -/
theorem wlKey_setUser_inj (a b : String) (s t : Storage) (ha : a ≠ "_anon") (hb : b ≠ "_anon")
    (h : wlKey (setUser a s) = wlKey (setUser b t)) : a = b := by
  rw [wlKey_setUser, wlKey_setUser] at h
  have h2 := append_left_cancel _ _ _ h
  simp only [orStr] at h2
  by_cases h3 : a = "" <;> by_cases h4 : b = "" <;> simp_all

theorem getWishlist_congr (s t : Storage) (hu : currentUser s = currentUser t)
    (hk : s.getItem (wlKey s) = t.getItem (wlKey s)) : getWishlist s = getWishlist t := by
  unfold getWishlist
  rw [← wlKey_congr s t hu, hk]

theorem getWishlist_setUser_setItem (b : String) (st : Storage) (k v : String)
    (hne : wlKey (setUser b st) ≠ k) :
    getWishlist (setUser b (st.setItem k v)) = getWishlist (setUser b st) := by
  apply getWishlist_congr
  · rw [currentUser_setUser, currentUser_setUser]
  · have hkb : wlKey (setUser b (st.setItem k v)) = wlKey (setUser b st) := by
      rw [wlKey_setUser, wlKey_setUser]
    rw [hkb, setUser_getItem_ne _ _ _ (wlKey_ne_user _), setUser_getItem_ne _ _ _ (wlKey_ne_user _),
      getItem_setItem_ne _ _ _ _ hne]

theorem addToWishlist_storage (now : Nat) (rnd : String) (item : PartialEntry) (st : Storage) :
    (addToWishlist now rnd item st).storage = st ∨
      ∃ t, (addToWishlist now rnd item st).storage = st.setItem (wlKey st) t := by
  simp only [addToWishlist]
  split
  · exact Or.inl rfl
  · exact Or.inr ⟨_, rfl⟩

theorem removeFromWishlist_storage (id : String) (st : Storage) :
    (removeFromWishlist id st).storage = st ∨
      ∃ t, (removeFromWishlist id st).storage = st.setItem (wlKey st) t := by
  unfold removeFromWishlist
  split
  · split
    · exact Or.inl rfl
    · exact Or.inr ⟨_, rfl⟩
  · exact Or.inl rfl

theorem updateAssignee_storage (id name : String) (st : Storage) :
    (updateAssignee id name st).storage = st ∨
      ∃ t, (updateAssignee id name st).storage = st.setItem (wlKey st) t := by
  unfold updateAssignee
  split
  · split
    · exact Or.inl rfl
    · exact Or.inr ⟨_, rfl⟩
  · exact Or.inl rfl

theorem frame_of_storage (b : String) (st s2 : Storage) (hne : wlKey (setUser b st) ≠ wlKey st)
    (h : s2 = st ∨ ∃ t, s2 = st.setItem (wlKey st) t) :
    getWishlist (setUser b s2) = getWishlist (setUser b st) := by
  rcases h with rfl | ⟨t, rfl⟩
  · rfl
  · exact getWishlist_setUser_setItem b st _ t hne

/-- Supporting fact for C2: when neither actor is named `_anon`, no wishlist
mutation under the current actor changes what another actor reads. -/
theorem mutation_frame (a b : String) (st : Storage) (ha : currentUser st = a) (hab : a ≠ b)
    (h1 : a ≠ "_anon") (h2 : b ≠ "_anon") (now : Nat) (rnd : String) (item : PartialEntry)
    (id name : String) :
    getWishlist (setUser b (addToWishlist now rnd item st).storage) = getWishlist (setUser b st) ∧
    getWishlist (setUser b (removeFromWishlist id st).storage) = getWishlist (setUser b st) ∧
    getWishlist (setUser b (updateAssignee id name st).storage) = getWishlist (setUser b st) ∧
    getWishlist (setUser b (setWishlist (.arr []) st)) = getWishlist (setUser b st) := by
  have hne : wlKey (setUser b st) ≠ wlKey st := by
    intro h
    have hs : wlKey st = wlKey (setUser a st) :=
      wlKey_congr _ _ (by rw [currentUser_setUser, ha])
    rw [hs] at h
    exact hab (wlKey_setUser_inj b a st st h2 h1 h).symm
  exact ⟨frame_of_storage b st _ hne (addToWishlist_storage now rnd item st),
    frame_of_storage b st _ hne (removeFromWishlist_storage id st),
    frame_of_storage b st _ hne (updateAssignee_storage id name st),
    frame_of_storage b st _ hne (Or.inr ⟨_, rfl⟩)⟩

/-- C1 (code defect): the signed-out visitor and a user named `_anon` are two
actors, yet `wlKey` derives the key `ll_wishlist__anon` for both. -/
theorem wlKey_anonymous_collides_with_anon_user :
    currentUser (setUser "" emptyStorage) = "" ∧
    currentUser (setUser "_anon" emptyStorage) = "_anon" ∧
    wlKey (setUser "" emptyStorage) = "ll_wishlist__anon" ∧
    wlKey (setUser "_anon" emptyStorage) = "ll_wishlist__anon" := by
  refine ⟨?_, ?_, ?_, ?_⟩ <;> decide

/-- C2 (code defect): a book added while nobody is signed in shows up in the
list of the user named `_anon`, whose list was empty before. -/
theorem anonymous_add_visible_to_anon_user :
    currentUser (setUser "" emptyStorage) = "" ∧
    getWishlist (setUser "_anon" (setUser "" emptyStorage)) = wishlistJS [] ∧
    getWishlist (setUser "_anon"
      (addToWishlist 1700000000000 "0.i" duneItem (setUser "" emptyStorage)).storage) =
      wishlistJS [duneEntry] :=
  ⟨by decide, by rfl, by rfl⟩

/-! ## Adding -/

theorem addAll_wf (calls : List AddCall) : ∀ (st : Storage) (L : List Entry),
    getWishlist st = wishlistJS L →
    getWishlist (addAll calls st) = wishlistJS (L ++ calls.map AddCall.created) := by
  induction calls with
  | nil => intro st L h; simpa [addAll] using h
  | cons c cs ih =>
    intro st L h
    have h2 := ih (addToWishlist c.now c.rnd c.item st).storage (L ++ [c.created]) (by
      rw [addToWishlist_wf c.now c.rnd c.item st L h]
      exact getWishlist_setWishlist _ st)
    simpa [addAll] using h2

theorem newId_pair_injective :
    Function.Injective (fun p : Nat × String => toString p.1 ++ "_" ++ p.2) := by
  intro p q h
  have hd := congrArg String.data h
  simp only [String.data_append, List.append_assoc] at hd
  simp only [List.singleton_append] at hd
  obtain ⟨h1, h2⟩ := append_sep_inj '_' _ _ _ _ (repr_no_underscore p.1) (repr_no_underscore q.1) hd
  have h3 : p.1 = q.1 := by rw [← decodeDecimal_repr p.1, ← decodeDecimal_repr q.1, h1]
  exact Prod.ext h3 (String.ext h2)

/-- C3 (code defect): two clicks in the same millisecond whose random draws
are both `0.5` leave two different entries carrying the same id, although the
id scheme is meant to keep ids unique under rapid additions. -/
theorem rapid_adds_share_id :
    getWishlist emptyStorage = wishlistJS [] ∧
    getWishlist (addAll twoClicks emptyStorage) =
      wishlistJS [⟨"1700000000000_i", "Dune", "", "", "manual", "", "", "", none⟩,
        ⟨"1700000000000_i", "Emma", "", "https://www.gutenberg.org", "ebooks", "", "", "", none⟩] ∧
    ¬ ([(⟨"1700000000000_i", "Dune", "", "", "manual", "", "", "", none⟩ : Entry),
        ⟨"1700000000000_i", "Emma", "", "https://www.gutenberg.org", "ebooks", "", "", "", none⟩].map
          Entry.id).Nodup :=
  ⟨by rfl, by rfl, by decide⟩

/-- Supporting fact for C3, the extent of the defect: `N` successive calls
of `addToWishlist` on an empty list yield `N` entries, in call order, the id of
each being the clock reading, an underscore and characters 2..5 of the
rendering of the random draw; two ids coincide only where both the clock
reading and the random characters coincide. -/
theorem addAll_ids_distinct_iff (calls : List AddCall) (st : Storage)
    (h : getWishlist st = wishlistJS []) :
    getWishlist (addAll calls st) = wishlistJS (calls.map AddCall.created) ∧
    (calls.map AddCall.created).length = calls.length ∧
    (calls.map AddCall.created).map Entry.id =
      calls.map (fun c => toString c.now ++ "_" ++ slice2to6 c.rnd) ∧
    (((calls.map AddCall.created).map Entry.id).Nodup ↔
      (calls.map (fun c => (c.now, slice2to6 c.rnd))).Nodup) := by
  have hids : (calls.map AddCall.created).map Entry.id =
      calls.map (fun c => toString c.now ++ "_" ++ slice2to6 c.rnd) := by
    simp only [List.map_map]
    rfl
  refine ⟨by simpa using addAll_wf calls st [] h, by simp, hids, ?_⟩
  rw [hids]
  have : calls.map (fun c => toString c.now ++ "_" ++ slice2to6 c.rnd) =
      (calls.map (fun c => (c.now, slice2to6 c.rnd))).map
        (fun p : Nat × String => toString p.1 ++ "_" ++ p.2) := by
    simp only [List.map_map]
    rfl
  rw [this]
  exact List.nodup_map_iff newId_pair_injective

theorem addAll_ids_distinct_iff_witness :
    getWishlist emptyStorage = wishlistJS [] ∧
    getWishlist (addAll twoSlowClicks emptyStorage) =
      wishlistJS (twoSlowClicks.map AddCall.created) ∧
    ((twoSlowClicks.map AddCall.created).map Entry.id).Nodup :=
  ⟨by rfl, (addAll_ids_distinct_iff twoSlowClicks emptyStorage (by rfl)).1,
    (addAll_ids_distinct_iff twoSlowClicks emptyStorage (by rfl)).2.2.2.2 (by decide)⟩

/-- Supporting fact for C4: with nothing stored under the wishlist key the
list is empty. -/
theorem getWishlist_of_absent (st : Storage) (h : st.getItem (wlKey st) = none) :
    getWishlist st = .arr [] := by
  unfold getWishlist
  rw [h]
  rfl

/-- Supporting fact for C4: a stored text that `JSON.parse` rejects reads as
the empty list. -/
theorem getWishlist_of_syntaxError (st : Storage) (t : String) (e : JSError)
    (h : st.getItem (wlKey st) = some t) (hp : JSON.parse t = .error e) :
    getWishlist st = .arr [] := by
  unfold getWishlist
  rw [h]
  by_cases ht : t = ""
  · subst ht; rfl
  · simp [orStr, ht, hp]

/-- C4 (code defect): a stored text that parses to something other than an
array is handed out as parsed: `null`, an object or a number come back
instead of the empty list, and the next add or remove throws a `TypeError`. -/
theorem getWishlist_stored_non_array :
    getWishlist (corruptStorage "null") = .null ∧
    getWishlist (corruptStorage "\x7b\x7d") = .obj [] ∧
    getWishlist (corruptStorage "5") = .num "5" ∧
    (addToWishlist 1700000000000 "0.i" duneItem (corruptStorage "null")).result =
      .error .typeError ∧
    (removeFromWishlist "1700000000000_i" (corruptStorage "null")).result =
      .error .typeError :=
  ⟨by rfl, by rfl, by rfl, by rfl, by rfl⟩

/-- C5 (counterexample): on a first visit `addToWishlist` completes with
`undefined`, not with the entry it has just stored. -/
theorem addToWishlist_returns_undefined :
    (addToWishlist 1700000000000 "0.i" duneItem emptyStorage).result = .ok none ∧
    (addToWishlist 1700000000000 "0.i" duneItem emptyStorage).result ≠
      .ok (some duneEntry.toJS) ∧
    getWishlist (addToWishlist 1700000000000 "0.i" duneItem emptyStorage).storage =
      wishlistJS [duneEntry] := by
  have h : (addToWishlist 1700000000000 "0.i" duneItem emptyStorage).result = .ok none := by rfl
  refine ⟨h, ?_, by rfl⟩
  rw [h]
  simp

/-- C5 (amended): on a well-formed list `addToWishlist` returns no value
(`undefined`); the entry it created, whose id is the freshly minted one, is the
last element of the list read back immediately afterwards. -/
theorem addToWishlist_result_and_last (now : Nat) (rnd : String) (item : PartialEntry)
    (st : Storage) (L : List Entry) (h : getWishlist st = wishlistJS L) :
    (addToWishlist now rnd item st).result = .ok none ∧
    ∃ L2 : List Entry,
      getWishlist (addToWishlist now rnd item st).storage = wishlistJS L2 ∧
      L2.getLast? = some (createdEntry now rnd item) ∧
      (createdEntry now rnd item).toJS = newEntry (newId now rnd) item ∧
      (createdEntry now rnd item).id = newId now rnd := by
  rw [addToWishlist_wf now rnd item st L h]
  exact ⟨rfl, L ++ [createdEntry now rnd item], getWishlist_setWishlist _ st, by simp,
    (newEntry_eq now rnd item).symm, rfl⟩

theorem addToWishlist_result_and_last_witness :
    getWishlist aliceStorage = wishlistJS [duneEntry, emmaEntry] ∧
    (addToWishlist 1700000000002 "0.9zz" emmaItem aliceStorage).result = .ok none ∧
    ∃ L2 : List Entry,
      getWishlist (addToWishlist 1700000000002 "0.9zz" emmaItem aliceStorage).storage =
        wishlistJS L2 ∧
      L2.getLast? = some (createdEntry 1700000000002 "0.9zz" emmaItem) ∧
      (createdEntry 1700000000002 "0.9zz" emmaItem).toJS =
        newEntry (newId 1700000000002 "0.9zz") emmaItem ∧
      (createdEntry 1700000000002 "0.9zz" emmaItem).id = newId 1700000000002 "0.9zz" :=
  ⟨getWishlist_alice, addToWishlist_result_and_last 1700000000002 "0.9zz" emmaItem aliceStorage
    [duneEntry, emmaEntry] getWishlist_alice⟩

theorem orStr_empty (x : Option String) : orStr x "" = x.getD "" := by
  cases x with
  | none => rfl
  | some s => by_cases h : s = "" <;> simp [orStr, h]

/-- C6: on a well-formed list `L`, `addToWishlist` leaves `L` followed by
exactly one new entry. The pushed object has the nine fields `id`, `title`,
`author`, `url`, `source`, `isbn`, `assignee`, `note`, `photo`; its title is the
candidate's when that is a non-empty string and `Untitled` otherwise, hence
never empty; each other text field is the candidate's value or the empty
string; the photo is the candidate's (non-empty) value or `null`. -/
theorem addToWishlist_appends (now : Nat) (rnd : String) (item : PartialEntry)
    (st : Storage) (L : List Entry) (h : getWishlist st = wishlistJS L) :
    ∃ e : Entry,
      getWishlist (addToWishlist now rnd item st).storage = wishlistJS (L ++ [e]) ∧
      e.toJS = newEntry (newId now rnd) item ∧
      e.id = newId now rnd ∧
      e.title = (match item.title with
        | some t => if t = "" then "Untitled" else t
        | none => "Untitled") ∧
      e.title ≠ "" ∧
      e.author = item.author.getD "" ∧
      e.url = item.url.getD "" ∧
      e.source = item.source.getD "" ∧
      e.isbn = item.isbn.getD "" ∧
      e.assignee = item.assignee.getD "" ∧
      e.note = item.note.getD "" ∧
      e.photo = (match item.photo with
        | some p => if p = "" then none else some p
        | none => none) := by
  refine ⟨createdEntry now rnd item, ?_, (newEntry_eq now rnd item).symm, rfl, rfl, ?_,
    orStr_empty _, orStr_empty _, orStr_empty _, orStr_empty _, orStr_empty _, orStr_empty _, rfl⟩
  · rw [addToWishlist_wf now rnd item st L h]
    exact getWishlist_setWishlist _ st
  · show orStr item.title "Untitled" ≠ ""
    cases item.title with
    | none => decide
    | some t =>
      by_cases ht : t = ""
      · simp only [orStr, ht, if_true]; decide
      · simp [orStr, ht]

theorem addToWishlist_appends_witness :
    getWishlist aliceStorage = wishlistJS [duneEntry, emmaEntry] ∧
    ∃ e : Entry,
      getWishlist (addToWishlist 1700000000002 "0.9zz" duneItem aliceStorage).storage =
        wishlistJS ([duneEntry, emmaEntry] ++ [e]) ∧
      e.toJS = newEntry (newId 1700000000002 "0.9zz") duneItem ∧
      e.id = newId 1700000000002 "0.9zz" ∧
      e.title = (match duneItem.title with
        | some t => if t = "" then "Untitled" else t
        | none => "Untitled") ∧
      e.title ≠ "" ∧
      e.author = duneItem.author.getD "" ∧
      e.url = duneItem.url.getD "" ∧
      e.source = duneItem.source.getD "" ∧
      e.isbn = duneItem.isbn.getD "" ∧
      e.assignee = duneItem.assignee.getD "" ∧
      e.note = duneItem.note.getD "" ∧
      e.photo = (match duneItem.photo with
        | some p => if p = "" then none else some p
        | none => none) :=
  ⟨getWishlist_alice, addToWishlist_appends 1700000000002 "0.9zz" duneItem aliceStorage
    [duneEntry, emmaEntry] getWishlist_alice⟩

/-! ## Patching, removing and switching actor -/

theorem assignIf_of_ne (id name : String) (e : Entry) (h : e.id ≠ id) :
    e.assignIf id name = e := by
  simp [Entry.assignIf, h]

theorem assignIf_of_eq (id name : String) (e : Entry) (h : e.id = id) :
    e.assignIf id name =
      ⟨e.id, e.title, e.author, e.url, e.source, e.isbn, name, e.note, e.photo⟩ := by
  simp [Entry.assignIf, h]

/-- C7: on a well-formed list `L`, `updateAssignee id value` leaves a list of
the same length and order in which every entry with another id is unchanged
and every entry with that id keeps its id and all other fields and has
`value` as assignee; when no entry has that id the list is unchanged. -/
theorem updateAssignee_patches_assignee_only (id value : String) (st : Storage) (L : List Entry)
    (h : getWishlist st = wishlistJS L) :
    ∃ L2 : List Entry,
      getWishlist (updateAssignee id value st).storage = wishlistJS L2 ∧
      L2.length = L.length ∧
      (∀ (i : Nat) (e : Entry), L[i]? = some e → e.id ≠ id → L2[i]? = some e) ∧
      (∀ (i : Nat) (e : Entry), L[i]? = some e → e.id = id →
        L2[i]? = some ⟨e.id, e.title, e.author, e.url, e.source, e.isbn, value, e.note, e.photo⟩) ∧
      ((∀ e ∈ L, e.id ≠ id) → L2 = L) := by
  refine ⟨L.map (Entry.assignIf id value), ?_, by simp, ?_, ?_, ?_⟩
  · rw [updateAssignee_wf id value st L h]
    exact getWishlist_setWishlist _ st
  · intro i e hi hne
    rw [List.getElem?_map, hi, Option.map_some', assignIf_of_ne id value e hne]
  · intro i e hi heq
    rw [List.getElem?_map, hi, Option.map_some', assignIf_of_eq id value e heq]
  · intro hall
    conv_rhs => rw [← List.map_id L]
    exact List.map_congr_left (fun e he => assignIf_of_ne id value e (hall e he))

theorem updateAssignee_patches_assignee_only_witness :
    getWishlist aliceStorage = wishlistJS [duneEntry, emmaEntry] ∧
    ∃ L2 : List Entry,
      getWishlist (updateAssignee "1700000000001_k3x9" "Kim" aliceStorage).storage =
        wishlistJS L2 ∧
      L2.length = [duneEntry, emmaEntry].length ∧
      (∀ (i : Nat) (e : Entry), [duneEntry, emmaEntry][i]? = some e → e.id ≠ "1700000000001_k3x9" →
        L2[i]? = some e) ∧
      (∀ (i : Nat) (e : Entry), [duneEntry, emmaEntry][i]? = some e → e.id = "1700000000001_k3x9" →
        L2[i]? =
          some ⟨e.id, e.title, e.author, e.url, e.source, e.isbn, "Kim", e.note, e.photo⟩) ∧
      ((∀ e ∈ [duneEntry, emmaEntry], e.id ≠ "1700000000001_k3x9") →
        L2 = [duneEntry, emmaEntry]) :=
  ⟨getWishlist_alice, updateAssignee_patches_assignee_only "1700000000001_k3x9" "Kim"
    aliceStorage [duneEntry, emmaEntry] getWishlist_alice⟩

/-- C8: on a well-formed list `L`, after `removeFromWishlist id` the list read
back holds no entry with that id and is otherwise `L`: exactly the entries of
`L` with another id, unchanged and in their original order. -/
theorem removeFromWishlist_filters (id : String) (st : Storage) (L : List Entry)
    (h : getWishlist st = wishlistJS L) :
    getWishlist (removeFromWishlist id st).storage = wishlistJS (L.filter (fun e => e.id ≠ id)) ∧
    (∀ e ∈ L.filter (fun e => e.id ≠ id), e.id ≠ id) ∧
    (∀ e, e ∈ L.filter (fun e => e.id ≠ id) ↔ e ∈ L ∧ e.id ≠ id) ∧
    (L.filter (fun e => e.id ≠ id)).Sublist L := by
  refine ⟨?_, ?_, ?_, List.filter_sublist L⟩
  · rw [removeFromWishlist_wf id st L h]
    exact getWishlist_setWishlist _ st
  · intro e he
    simpa using (List.mem_filter.mp he).2
  · intro e
    simp [List.mem_filter]

theorem removeFromWishlist_filters_witness :
    getWishlist aliceStorage = wishlistJS [duneEntry, emmaEntry] ∧
    getWishlist (removeFromWishlist "1700000000000_i" aliceStorage).storage =
      wishlistJS [emmaEntry] :=
  ⟨getWishlist_alice,
    (removeFromWishlist_filters "1700000000000_i" aliceStorage [duneEntry, emmaEntry]
      getWishlist_alice).1⟩

theorem setItem_setItem (st : Storage) (k v : String) :
    (st.setItem k v).setItem k v = st.setItem k v := by
  funext j
  simp only [Storage.setItem]
  split_ifs <;> rfl

/-- C9: on a well-formed list, calling `removeFromWishlist id` twice in a row
leaves the same storage as calling it once, and when no entry carries `id` the
call leaves the list read back unchanged. -/
theorem removeFromWishlist_idempotent (id : String) (st : Storage) (L : List Entry)
    (h : getWishlist st = wishlistJS L) :
    (removeFromWishlist id (removeFromWishlist id st).storage).storage =
      (removeFromWishlist id st).storage ∧
    ((∀ e ∈ L, e.id ≠ id) → getWishlist (removeFromWishlist id st).storage = getWishlist st) := by
  have h1 := removeFromWishlist_wf id st L h
  have h2 : getWishlist (removeFromWishlist id st).storage =
      wishlistJS (L.filter (fun e => e.id ≠ id)) := by
    rw [h1]; exact getWishlist_setWishlist _ st
  constructor
  · rw [removeFromWishlist_wf id _ _ h2, h1]
    simp only [List.filter_filter, Bool.and_self]
    show setWishlist _ (setWishlist _ st) = setWishlist _ st
    unfold setWishlist
    rw [show wlKey (st.setItem (wlKey st) _) = wlKey st from wlKey_setWishlist _ st]
    exact setItem_setItem st _ _
  · intro hall
    rw [h2, h]
    congr 1
    exact List.filter_eq_self.mpr (fun e he => by simpa using hall e he)

theorem removeFromWishlist_idempotent_witness :
    getWishlist aliceStorage = wishlistJS [duneEntry, emmaEntry] ∧
    (∀ e ∈ [duneEntry, emmaEntry], e.id ≠ "1600000000000_zzzz") ∧
    (removeFromWishlist "1600000000000_zzzz"
      (removeFromWishlist "1600000000000_zzzz" aliceStorage).storage).storage =
      (removeFromWishlist "1600000000000_zzzz" aliceStorage).storage ∧
    getWishlist (removeFromWishlist "1600000000000_zzzz" aliceStorage).storage =
      getWishlist aliceStorage :=
  ⟨getWishlist_alice, by decide,
    (removeFromWishlist_idempotent "1600000000000_zzzz" aliceStorage [duneEntry, emmaEntry]
      getWishlist_alice).1,
    (removeFromWishlist_idempotent "1600000000000_zzzz" aliceStorage [duneEntry, emmaEntry]
      getWishlist_alice).2 (by decide)⟩

/-- C10: switching actor alters no wishlist. If `A` is the current actor,
then after `setUser B` followed by `setUser A` the list read back is the one
read before, and `setUser` changes no storage key other than the current-user
key. -/
theorem setUser_roundtrip_keeps_wishlist (st : Storage) (A B : String)
    (hA : currentUser st = A) :
    getWishlist (setUser A (setUser B st)) = getWishlist st ∧
    (∀ k, k ≠ LS_USER_KEY → (setUser B st).getItem k = st.getItem k) ∧
    (∀ k, k ≠ LS_USER_KEY → (setUser A (setUser B st)).getItem k = st.getItem k) := by
  refine ⟨?_, fun k hk => setUser_getItem_ne B st k hk, fun k hk => ?_⟩
  · apply getWishlist_congr
    · rw [currentUser_setUser, hA]
    · rw [setUser_getItem_ne _ _ _ (wlKey_ne_user _), setUser_getItem_ne _ _ _ (wlKey_ne_user _)]
  · rw [setUser_getItem_ne _ _ _ hk, setUser_getItem_ne _ _ _ hk]

theorem setUser_roundtrip_keeps_wishlist_witness :
    currentUser aliceStorage = "alice" ∧
    getWishlist (setUser "alice" (setUser "bob" aliceStorage)) = getWishlist aliceStorage ∧
    getWishlist (setUser "bob" aliceStorage) = wishlistJS [] ∧
    getWishlist (setUser "alice" (setUser "bob" aliceStorage)) =
      wishlistJS [duneEntry, emmaEntry] :=
  ⟨by decide, (setUser_roundtrip_keeps_wishlist aliceStorage "alice" "bob" (by decide)).1,
    by rfl, by rfl⟩

/-! ## Signing in and out, clearing -/

/-- C11: after `setUser name` with a non-empty name the name is persisted and
`currentUser` returns it; after `setUser ""` the persisted user is cleared and
`currentUser` returns the empty string; `currentUser` also returns the empty
string when no user was ever set. -/
theorem currentUser_after_setUser (st : Storage) (name : String) :
    (name ≠ "" → (setUser name st).getItem LS_USER_KEY = some name ∧
      currentUser (setUser name st) = name) ∧
    (setUser "" st).getItem LS_USER_KEY = none ∧
    currentUser (setUser "" st) = "" ∧
    (st.getItem LS_USER_KEY = none → currentUser st = "") := by
  refine ⟨fun hn => ⟨?_, currentUser_setUser name st⟩, ?_, currentUser_setUser "" st, ?_⟩
  · unfold setUser
    rw [if_pos hn, getItem_setItem_same]
  · unfold setUser
    rw [if_neg (by simp), getItem_removeItem_same]
  · intro h
    unfold currentUser
    rw [h]
    rfl

theorem currentUser_after_setUser_witness :
    ("bob" : String) ≠ "" ∧
    emptyStorage.getItem LS_USER_KEY = none ∧
    (setUser "bob" aliceStorage).getItem LS_USER_KEY = some "bob" ∧
    currentUser (setUser "bob" aliceStorage) = "bob" ∧
    currentUser (setUser "" aliceStorage) = "" ∧
    currentUser emptyStorage = "" :=
  ⟨by decide, rfl,
    ((currentUser_after_setUser aliceStorage "bob").1 (by decide)).1,
    ((currentUser_after_setUser aliceStorage "bob").1 (by decide)).2,
    (currentUser_after_setUser aliceStorage "bob").2.2.1,
    (currentUser_after_setUser emptyStorage "bob").2.2.2 rfl⟩

/-- C12: whatever the storage holds and whoever is the current actor, after
the confirmed clear, which is `setWishlist([])`, the list read back for that
actor is empty. -/
theorem clear_empties_current_wishlist (st : Storage) :
    getWishlist (clearWishlistClick true st) = .arr [] ∧
    getWishlist (setWishlist (.arr []) st) = .arr [] ∧
    currentUser (clearWishlistClick true st) = currentUser st :=
  ⟨getWishlist_setWishlist [] st, getWishlist_setWishlist [] st,
    currentUser_setItem_ne st _ _ (wlKey_ne_user st)⟩

/-! ## Catalog feed -/

theorem mem_poetryData (r : CatalogRow) (h : r ∈ poetryData) :
    ∃ idx row, r = poetryRow idx row := by
  unfold poetryData at h
  rw [List.mapIdx_eq_enum_map, List.mem_map] at h
  obtain ⟨p, _, hp⟩ := h
  exact ⟨p.1, p.2, hp.symm⟩

theorem typeFromLabel_mem (label : Option String) : typeFromLabel label ∈ rowTypes := by
  unfold typeFromLabel
  simp only
  split_ifs <;> decide

/-- C13: `typeFromLabel` sends every label, the empty and the missing one
included, to one of `downloadable`, `online`, `audiobook`, `mixed`; hence every
row of `poetryData` has one of these types, and its `n` is its 1-based
position. -/
theorem typeFromLabel_total_poetryData_numbered :
    (∀ label : Option String, typeFromLabel label ∈ rowTypes) ∧
    typeFromLabel none = "online" ∧
    typeFromLabel (some "") = "online" ∧
    poetryData.length = poetryRaw.length ∧
    (∀ (i : Nat) (r : CatalogRow), poetryData[i]? = some r → r.n = i + 1) ∧
    (∀ r ∈ poetryData, r.type ∈ rowTypes) := by
  refine ⟨typeFromLabel_mem, by decide, by decide, by simp [poetryData], ?_, ?_⟩
  · intro i r h
    unfold poetryData at h
    rw [List.getElem?_mapIdx] at h
    cases hrow : poetryRaw[i]? with
    | none => rw [hrow] at h; cases h
    | some row =>
      rw [hrow] at h
      simp only [Option.map_some', Option.some.injEq] at h
      rw [← h]
      rfl
  · intro r hr
    obtain ⟨idx, row, rfl⟩ := mem_poetryData r hr
    exact typeFromLabel_mem _

theorem typeFromLabel_total_poetryData_numbered_witness :
    poetryData[22]? = some ⟨23, "Poetry 180", some "https://loc.gov/poetry/180/", "online",
      "Online viewing only — Poetry for each of the 180 days of school"⟩ ∧
    (⟨23, "Poetry 180", some "https://loc.gov/poetry/180/", "online",
      "Online viewing only — Poetry for each of the 180 days of school"⟩ : CatalogRow).n = 22 + 1 ∧
    typeFromLabel (some "Online viewing, MP3, OGG") ∈ rowTypes :=
  ⟨by decide, typeFromLabel_total_poetryData_numbered.2.2.2.2.1 22 _ (by decide),
    typeFromLabel_total_poetryData_numbered.1 _⟩

theorem matchIgnoreCase_append (p q : List Char) : ∀ cs : List Char,
    matchIgnoreCase (p ++ q) cs = (matchIgnoreCase p cs).bind (matchIgnoreCase q) := by
  induction p with
  | nil => intro cs; cases q <;> cases cs <;> simp [matchIgnoreCase]
  | cons a p ih =>
    intro cs
    cases cs with
    | nil => simp [matchIgnoreCase]
    | cons c cs =>
      simp only [List.cons_append, matchIgnoreCase]
      split_ifs
      · exact ih cs
      · rfl

theorem testHttpScheme_iff (d : String) :
    testHttpScheme d = true ↔
      beginsIgnoringCase "http://" d = true ∨ beginsIgnoringCase "https://" d = true := by
  have h1 : ("http://" : String).data = ['h', 't', 't', 'p'] ++ [':', '/', '/'] := rfl
  have h2 : ("https://" : String).data = ['h', 't', 't', 'p'] ++ (['s'] ++ [':', '/', '/']) := rfl
  unfold testHttpScheme beginsIgnoringCase
  rw [h1, h2, matchIgnoreCase_append, matchIgnoreCase_append]
  cases matchIgnoreCase ['h', 't', 't', 'p'] d.data with
  | none => simp
  | some r =>
    simp only [Option.some_bind, matchIgnoreCase_append]
    cases matchIgnoreCase ['s'] r with
    | none => simp
    | some r2 => simp [or_comm]

theorem toLower_of_trimChar (c : Char) (h : isTrimChar c = true) : c.toLower = c := by
  have hn : ¬ (c.toNat ≥ 65 ∧ c.toNat ≤ 90) := by
    simp only [isTrimChar, Bool.or_eq_true, Bool.and_eq_true, decide_eq_true_eq] at h
    omega
  simp only [Char.toLower]
  rw [if_neg]
  exact hn

theorem matchIgnoreCase_trimEnd (p : List Char) (hp : ∀ a ∈ p, isTrimChar a = false) :
    ∀ cs r : List Char, matchIgnoreCase p cs = some r →
      matchIgnoreCase p (trimEnd cs) = some (trimEnd r) := by
  induction p with
  | nil =>
    intro cs r h
    have : cs = r := by cases cs <;> simpa [matchIgnoreCase] using h
    subst this
    cases h2 : trimEnd cs <;> simp [matchIgnoreCase]
  | cons a p ih =>
    intro cs r h
    cases cs with
    | nil => simp [matchIgnoreCase] at h
    | cons c cs =>
      simp only [matchIgnoreCase] at h
      split_ifs at h with hc
      have hnt : isTrimChar c = false := by
        by_contra hcon
        have ht : isTrimChar c = true := by simpa using hcon
        have := toLower_of_trimChar c ht
        rw [this] at hc
        rw [hc] at ht
        rw [hp a (List.mem_cons_self _ _)] at ht
        cases ht
      simp only [trimEnd, hnt, Bool.false_and, if_false, matchIgnoreCase, hc, if_true]
      exact ih (fun x hx => hp x (List.mem_cons_of_mem _ hx)) cs r h

theorem trimStart_of_match (p : List Char) (a : Char) (hp : isTrimChar a = false)
    (cs r : List Char) (h : matchIgnoreCase (a :: p) cs = some r) : trimStart cs = cs := by
  cases cs with
  | nil => rfl
  | cons c cs =>
    simp only [matchIgnoreCase] at h
    split_ifs at h with hc
    have hnt : isTrimChar c = false := by
      by_contra hcon
      have ht : isTrimChar c = true := by simpa using hcon
      have := toLower_of_trimChar c ht
      rw [this] at hc
      rw [hc, hp] at ht
      cases ht
    simp [trimStart, hnt]

theorem trimEnd_eq_self : ∀ l : List Char,
    (∀ c, l.getLast? = some c → isTrimChar c = false) → trimEnd l = l := by
  intro l
  induction l with
  | nil => intro _; rfl
  | cons c cs ih =>
    intro h
    cases cs with
    | nil =>
      have := h c rfl
      simp [trimEnd, this]
    | cons d ds =>
      have h2 := ih (fun x hx => h x (by simpa [List.getLast?_cons_cons] using hx))
      rw [trimEnd, h2]
      simp

theorem urlFromDomain_of_begins (lit d : String) (a : Char) (p : List Char)
    (hlit : lit.data = a :: p) (hp : ∀ x ∈ a :: p, isTrimChar x = false)
    (hb : beginsIgnoringCase lit d = true) :
    trimStart d.data = d.data ∧ beginsIgnoringCase lit (String.mk (trimEnd d.data)) = true ∧
      d ≠ "" := by
  unfold beginsIgnoringCase at hb ⊢
  rw [hlit] at hb ⊢
  cases hm : matchIgnoreCase (a :: p) d.data with
  | none => rw [hm] at hb; cases hb
  | some r =>
    refine ⟨trimStart_of_match p a (hp a (List.mem_cons_self _ _)) _ r hm, ?_, ?_⟩
    · show (matchIgnoreCase (a :: p) (trimEnd d.data)).isSome = true
      rw [matchIgnoreCase_trimEnd (a :: p) hp _ r hm]
      rfl
    · rintro rfl
      simp [matchIgnoreCase] at hm

/-- C14 (counterexample): a URL followed by a blank does not come back
unchanged; the blank is trimmed off. -/
theorem urlFromDomain_trims_trailing_blank :
    beginsIgnoringCase "https://" "https://poets.org " = true ∧
    urlFromDomain (some "https://poets.org ") = some "https://poets.org" ∧
    urlFromDomain (some "https://poets.org ") ≠ some "https://poets.org " := by
  decide

/-- C14 (amended): for every string `d` that begins, case disregarded, with
`http://` or `https://`, `urlFromDomain d` returns `d.trim()`, which is `d`
without its trailing white space and hence `d` itself when `d` does not end in
white space; for an empty or missing `d` it returns `null`. -/
theorem urlFromDomain_of_url (d : String)
    (h : beginsIgnoringCase "http://" d = true ∨ beginsIgnoringCase "https://" d = true) :
    urlFromDomain (some d) = some (trim d) ∧
    trim d = String.mk (trimEnd d.data) ∧
    ((∀ c, d.data.getLast? = some c → isTrimChar c = false) → urlFromDomain (some d) = some d) ∧
    urlFromDomain (some "") = none ∧
    urlFromDomain none = none := by
  have hfacts : trimStart d.data = d.data ∧
      testHttpScheme (String.mk (trimEnd d.data)) = true ∧ d ≠ "" := by
    rcases h with h | h
    · obtain ⟨h1, h2, h3⟩ := urlFromDomain_of_begins "http://" d 'h' ['t', 't', 'p', ':', '/', '/']
        rfl (by decide) h
      exact ⟨h1, (testHttpScheme_iff _).mpr (Or.inl h2), h3⟩
    · obtain ⟨h1, h2, h3⟩ := urlFromDomain_of_begins "https://" d 'h'
        ['t', 't', 'p', 's', ':', '/', '/'] rfl (by decide) h
      exact ⟨h1, (testHttpScheme_iff _).mpr (Or.inr h2), h3⟩
  obtain ⟨h1, h2, h3⟩ := hfacts
  have htrim : trim d = String.mk (trimEnd d.data) := by
    unfold trim
    rw [h1]
  have hres : urlFromDomain (some d) = some (trim d) := by
    simp only [urlFromDomain, h3, if_false, htrim, h2, Bool.not_true]
    rfl
  refine ⟨hres, htrim, ?_, by decide, rfl⟩
  intro hlast
  rw [hres, htrim, trimEnd_eq_self d.data hlast]

theorem urlFromDomain_of_url_witness :
    (beginsIgnoringCase "http://" "HTTPS://www.Gutenberg.org" = true ∨
      beginsIgnoringCase "https://" "HTTPS://www.Gutenberg.org" = true) ∧
    urlFromDomain (some "HTTPS://www.Gutenberg.org") = some "HTTPS://www.Gutenberg.org" :=
  ⟨by decide,
    (urlFromDomain_of_url "HTTPS://www.Gutenberg.org" (by decide)).2.2.1 (by decide)⟩

/-! ## Adding then removing -/

theorem photoJS_injective (p q : Option String) (h : photoJS p = photoJS q) : p = q := by
  cases p <;> cases q <;> simp_all [photoJS]

theorem toJS_injective : Function.Injective Entry.toJS := by
  intro a b h
  cases a
  cases b
  simp only [Entry.toJS, JSValue.obj.injEq, List.cons.injEq, Prod.mk.injEq, JSValue.str.injEq,
    true_and, and_true] at h
  obtain ⟨h1, h2, h3, h4, h5, h6, h7, h8, h9⟩ := h
  have := photoJS_injective _ _ h9
  simp_all

theorem wishlistJS_injective : Function.Injective wishlistJS := by
  intro a b h
  simp only [wishlistJS, JSValue.arr.injEq] at h
  exact List.map_injective_iff.mpr toJS_injective h

/-- C15: on a well-formed list `L`, adding an item and then removing the id
just generated leaves exactly `L` if that id does not already occur in `L`,
and only then. -/
theorem add_then_remove_roundtrip (now : Nat) (rnd : String) (item : PartialEntry)
    (st : Storage) (L : List Entry) (h : getWishlist st = wishlistJS L) :
    ((∀ e ∈ L, e.id ≠ newId now rnd) →
      getWishlist (removeFromWishlist (newId now rnd)
        (addToWishlist now rnd item st).storage).storage = wishlistJS L ∧
      getWishlist (removeFromWishlist (newId now rnd)
        (addToWishlist now rnd item st).storage).storage = getWishlist st) ∧
    (getWishlist (removeFromWishlist (newId now rnd)
        (addToWishlist now rnd item st).storage).storage = wishlistJS L →
      ∀ e ∈ L, e.id ≠ newId now rnd) := by
  have hadd : getWishlist (addToWishlist now rnd item st).storage =
      wishlistJS (L ++ [createdEntry now rnd item]) := by
    rw [addToWishlist_wf now rnd item st L h]
    exact getWishlist_setWishlist _ st
  have hrem : getWishlist (removeFromWishlist (newId now rnd)
      (addToWishlist now rnd item st).storage).storage =
      wishlistJS (L.filter (fun e => e.id ≠ newId now rnd)) := by
    rw [removeFromWishlist_wf _ _ _ hadd]
    rw [getWishlist_setWishlist]
    congr 1
    have hid : (createdEntry now rnd item).id = newId now rnd := rfl
    simp [List.filter_append, List.filter, hid]
  constructor
  · intro hfresh
    have hf : L.filter (fun e => e.id ≠ newId now rnd) = L :=
      List.filter_eq_self.mpr (fun e he => by simpa using hfresh e he)
    rw [hrem, hf]
    exact ⟨rfl, h.symm⟩
  · intro heq e he
    rw [hrem] at heq
    have hf := wishlistJS_injective heq
    have := List.filter_eq_self.mp hf e he
    simpa using this

theorem add_then_remove_roundtrip_witness :
    getWishlist aliceStorage = wishlistJS [duneEntry, emmaEntry] ∧
    (∀ e ∈ [duneEntry, emmaEntry], e.id ≠ newId 1700000000002 "0.9zz") ∧
    getWishlist (removeFromWishlist (newId 1700000000002 "0.9zz")
      (addToWishlist 1700000000002 "0.9zz" emmaItem aliceStorage).storage).storage =
      wishlistJS [duneEntry, emmaEntry] :=
  ⟨getWishlist_alice, by decide,
    ((add_then_remove_roundtrip 1700000000002 "0.9zz" emmaItem aliceStorage
      [duneEntry, emmaEntry] getWishlist_alice).1 (by decide)).1⟩

end LitLaid
